import Mathlib

/-!
# Key Vault identifier resolution (`azurerm/helpers/azure/key_vault.go`)

A shallow embedding of the three helpers of `key_vault.go`:

* `GetKeyVaultBaseUrlFromID` : resource identifier → data-plane base URI,
* `KeyVaultExists`           : resource identifier → existence,
* `GetKeyVaultIDFromBaseUrl` : data-plane base URI → resource identifier, by a scan of the
  vault listing.

The collaborators the helpers call (the resource-identifier parser and the SDK's
`keyvault.VaultsClient`) are parameters.  Every Go function returns its pair of results
together with the ordered list of collaborator calls it issued, so that "no network call",
"exactly one point lookup" and similar statements are statements about that list.

The `context.Context` argument is threaded unchanged through every call in the source and
carries no data the helpers inspect; it is left out.  The `log.Printf` diagnostics have no
effect on the results and are left out as well.
-/

namespace Azure

/-! ## Errors -/

/-- An error value produced by a collaborator (the parser or the SDK client).  The helpers
never look inside it; they return it or hand it to `fmt.Errorf` as an operand. -/
structure ForeignError where
  msg : String
deriving DecidableEq, Repr

/-- An operand of `fmt.Errorf`: a string (verbs `%s`, `%q`) or an error value (verbs `%v`,
`%+v`), where `none` is Go's `nil` error. -/
inductive FmtArg where
  | str (s : String)
  | err (e : Option ForeignError)
deriving DecidableEq, Repr

/-- A Go `error` as the helpers return it: either a collaborator's error passed on
unchanged, or the value of `fmt.Errorf format args...`, kept as the format string and its
operands. -/
inductive Error where
  | foreign (e : ForeignError)
  | Errorf (format : String) (args : List FmtArg)
deriving DecidableEq, Repr

/-! ## Data model -/

/-- Modelled from the spec: the `ResourceID` struct that `ParseAzureResourceID` returns is
declared in `resourceid.go`, which is not among the sources.  The spec's ResourceIdentifier
has a subscription id, a resource group name, a provider namespace and a mapping from
resource-type name to resource name; a Go `map[string]string` is kept as an association
list read with `List.lookup`. -/
structure ResourceID where
  SubscriptionID : String
  ResourceGroup : String
  Provider : String
  Path : List (String × String)
deriving DecidableEq, Repr

/-- Modelled from the spec: `autorest.Response` and `utils.ResponseWasNotFound` are not
among the sources.  The spec only distinguishes a response by which "the service reports
the resource absent"; that report is the one field kept. -/
structure Response where
  absent : Bool
deriving DecidableEq, Repr

/-- Modelled from the spec: `utils.ResponseWasNotFound` (in `utils/response.go`, not among
the sources) tells whether the service reported the resource absent. -/
def ResponseWasNotFound (resp : Response) : Bool :=
  resp.absent

/-- The `keyvault.VaultProperties` fields the helpers read; `none` is a nil pointer. -/
structure VaultProperties where
  VaultURI : Option String
deriving DecidableEq, Repr

/-- The `keyvault.Vault` fields the helpers read; `none` is a nil pointer. -/
structure Vault where
  Response : Response
  ID : Option String
  Properties : Option VaultProperties
deriving DecidableEq, Repr

/-- The observable behaviour of the `keyvault.VaultListResultIterator` that `ListComplete`
returns, as far as a loop `for list.NotDone() { list.Value(); list.NextWithContext(ctx) }`
can see it.

* `done`: `NotDone()` is false.
* `item v paged rest`: `NotDone()` is true, `Value()` is `v`, and `NextWithContext`
  succeeds and leaves the iterator behaving as `rest`; `paged` tells whether that advance
  had to request a further page from the service.
* `stuck v e`: `NotDone()` is true, `Value()` is `v`, and `NextWithContext` fails with `e`
  (the request for the further page failed). -/
inductive VaultListResultIterator where
  | done
  | item (v : Vault) (paged : Bool) (rest : VaultListResultIterator)
  | stuck (v : Vault) (e : ForeignError)
deriving DecidableEq, Repr

/-- The two methods of `keyvault.VaultsClient` the helpers call.  Each returns Go's pair of
a value and an error (`none` is `nil`).  The client is a function of its arguments: one
fixed remote state is observed throughout a call of a helper. -/
structure VaultsClient where
  Get : String → String → Vault × Option ForeignError
  ListComplete : Nat → VaultListResultIterator × Option ForeignError

/-- A call a helper issues to a collaborator. -/
inductive Call where
  | Parse (id : String)
  | Get (resourceGroup : String) (vaultName : String)
  | ListComplete (top : Nat)
  | NextWithContext (paged : Bool)
deriving DecidableEq, Repr

/-- The calls that reach the remote service: everything but the parser.  An advance of the
iterator counts, as it may request a page. -/
def Call.isNetwork : Call → Bool
  | Call.Parse _ => false
  | _ => true

/-- What a helper returns: Go's pair `(val, err)` and the calls issued, in order. -/
structure Outcome (α : Type) where
  val : α
  err : Option Error
  calls : List Call
deriving DecidableEq, Repr

/-! ## `GetKeyVaultBaseUrlFromID` and `KeyVaultExists` -/

/-- `GetKeyVaultBaseUrlFromID` (lines 12-42). -/
def GetKeyVaultBaseUrlFromID (ParseAzureResourceID : String → Except ForeignError ResourceID)
    (client : VaultsClient) (keyVaultId : String) : Outcome String :=
  if keyVaultId = "" then
    ⟨"", some (Error.Errorf "keyVaultId is empty" []), []⟩
  else
    match ParseAzureResourceID keyVaultId with
    | Except.error err => ⟨"", some (Error.foreign err), [Call.Parse keyVaultId]⟩
    | Except.ok id =>
      let resourceGroup := id.ResourceGroup
      match id.Path.lookup "vaults" with
      | none =>
        ⟨"", some (Error.Errorf "resource id does not contain `vaults`: %q"
          [FmtArg.str keyVaultId]), [Call.Parse keyVaultId]⟩
      | some vaultName =>
        let calls := [Call.Parse keyVaultId, Call.Get resourceGroup vaultName]
        match client.Get resourceGroup vaultName with
        | (resp, some err) =>
          if ResponseWasNotFound resp.Response then
            ⟨"", some (Error.Errorf "Error unable to find KeyVault %q (Resource Group %q): %+v"
              [FmtArg.str vaultName, FmtArg.str resourceGroup, FmtArg.err (some err)]), calls⟩
          else
            ⟨"", some (Error.Errorf
              "Error making Read request on KeyVault %q (Resource Group %q): %+v"
              [FmtArg.str vaultName, FmtArg.str resourceGroup, FmtArg.err (some err)]), calls⟩
        | (resp, none) =>
          match resp.Properties with
          | none =>
            ⟨"", some (Error.Errorf "vault (%s) response properties or VaultURI is nil"
              [FmtArg.str keyVaultId]), calls⟩
          | some props =>
            match props.VaultURI with
            | none =>
              ⟨"", some (Error.Errorf "vault (%s) response properties or VaultURI is nil"
                [FmtArg.str keyVaultId]), calls⟩
            | some uri => ⟨uri, none, calls⟩

/-- `KeyVaultExists` (lines 100-130). -/
def KeyVaultExists (ParseAzureResourceID : String → Except ForeignError ResourceID)
    (client : VaultsClient) (keyVaultId : String) : Outcome Bool :=
  if keyVaultId = "" then
    ⟨false, some (Error.Errorf "keyVaultId is empty" []), []⟩
  else
    match ParseAzureResourceID keyVaultId with
    | Except.error err => ⟨false, some (Error.foreign err), [Call.Parse keyVaultId]⟩
    | Except.ok id =>
      let resourceGroup := id.ResourceGroup
      match id.Path.lookup "vaults" with
      | none =>
        ⟨false, some (Error.Errorf "resource id does not contain `vaults`: %q"
          [FmtArg.str keyVaultId]), [Call.Parse keyVaultId]⟩
      | some vaultName =>
        let calls := [Call.Parse keyVaultId, Call.Get resourceGroup vaultName]
        match client.Get resourceGroup vaultName with
        | (resp, some err) =>
          if ResponseWasNotFound resp.Response then
            ⟨false, none, calls⟩
          else
            ⟨false, some (Error.Errorf
              "Error making Read request on KeyVault %q (Resource Group %q): %+v"
              [FmtArg.str vaultName, FmtArg.str resourceGroup, FmtArg.err (some err)]), calls⟩
        | (resp, none) =>
          match resp.Properties with
          | none =>
            ⟨false, some (Error.Errorf "vault (%s) response properties or VaultURI is nil"
              [FmtArg.str keyVaultId]), calls⟩
          | some props =>
            match props.VaultURI with
            | none =>
              ⟨false, some (Error.Errorf "vault (%s) response properties or VaultURI is nil"
                [FmtArg.str keyVaultId]), calls⟩
            | some _ => ⟨true, none, calls⟩

/-! ## `GetKeyVaultIDFromBaseUrl` -/

/-- The function literal of lines 54-85, applied to the current list value `v`: the
identifier to report (`none` is the nil pointer, "skip this candidate") and the calls
issued.  `vid.Path["vaults"]` is read without the `ok` flag, so a missing key gives the
zero value `""`. -/
def GetKeyVaultIDFromBaseUrl.candidate
    (ParseAzureResourceID : String → Except ForeignError ResourceID)
    (client : VaultsClient) (keyVaultUrl : String) (v : Vault) : Option String × List Call :=
  match v.ID with
  | none => (none, [])
  | some vID =>
    match ParseAzureResourceID vID with
    | Except.error _ => (none, [Call.Parse vID])
    | Except.ok vid =>
      let resourceGroup := vid.ResourceGroup
      let name := (vid.Path.lookup "vaults").getD ""
      let calls := [Call.Parse vID, Call.Get resourceGroup name]
      match client.Get resourceGroup name with
      | (_, some _) => (none, calls)
      | (get, none) =>
        match get.ID with
        | none => (none, calls)
        | some getID =>
          match get.Properties with
          | none => (none, calls)
          | some props =>
            match props.VaultURI with
            | none => (none, calls)
            | some uri => if keyVaultUrl = uri then (some getID, calls) else (none, calls)

/-- The loop of lines 50-94 over the iterator.  `err` is the variable declared at line 45
(the error of `ListComplete`): it is the operand of the `fmt.Errorf` of line 92, where the
error of the failed advance is the other variable, `e`. -/
def GetKeyVaultIDFromBaseUrl.loop
    (ParseAzureResourceID : String → Except ForeignError ResourceID)
    (client : VaultsClient) (keyVaultUrl : String) (err : Option ForeignError) :
    VaultListResultIterator → Outcome (Option String)
  | VaultListResultIterator.done => ⟨none, none, []⟩
  | VaultListResultIterator.item v paged rest =>
    match GetKeyVaultIDFromBaseUrl.candidate ParseAzureResourceID client keyVaultUrl v with
    | (some id, calls) => ⟨some id, none, calls⟩
    | (none, calls) =>
      let r := GetKeyVaultIDFromBaseUrl.loop ParseAzureResourceID client keyVaultUrl err rest
      ⟨r.val, r.err, calls ++ Call.NextWithContext paged :: r.calls⟩
  | VaultListResultIterator.stuck v _e =>
    match GetKeyVaultIDFromBaseUrl.candidate ParseAzureResourceID client keyVaultUrl v with
    | (some id, calls) => ⟨some id, none, calls⟩
    | (none, calls) =>
      ⟨none, some (Error.Errorf
        "Error GetKeyVaultId: Error getting next vault on KeyVault url %q : %+v"
        [FmtArg.str keyVaultUrl, FmtArg.err err]), calls ++ [Call.NextWithContext true]⟩

/-- `GetKeyVaultIDFromBaseUrl` (lines 44-98); `utils.Int32(1000)` is the page-size hint. -/
def GetKeyVaultIDFromBaseUrl (ParseAzureResourceID : String → Except ForeignError ResourceID)
    (client : VaultsClient) (keyVaultUrl : String) : Outcome (Option String) :=
  match client.ListComplete 1000 with
  | (list, err) =>
    match err with
    | some _ =>
      ⟨none, some (Error.Errorf "Error GetKeyVaultId unable to list Key Vaults %v"
        [FmtArg.err err]), [Call.ListComplete 1000]⟩
    | none =>
      let r := GetKeyVaultIDFromBaseUrl.loop ParseAzureResourceID client keyVaultUrl err list
      ⟨r.val, r.err, Call.ListComplete 1000 :: r.calls⟩

/-! ## Vocabulary of the statements -/

/-- The values the iterator yields, in enumeration order. -/
def VaultListResultIterator.values : VaultListResultIterator → List Vault
  | VaultListResultIterator.done => []
  | VaultListResultIterator.item v _ rest => v :: rest.values
  | VaultListResultIterator.stuck v _ => [v]

/-- Every advance of the iterator succeeds: the enumeration runs to its end. -/
def VaultListResultIterator.completes : VaultListResultIterator → Bool
  | VaultListResultIterator.done => true
  | VaultListResultIterator.item _ _ rest => rest.completes
  | VaultListResultIterator.stuck _ _ => false

/-- The iterator that yields the values of `pre`, each followed by a successful advance
(with the given page flag), and then behaves as `it`. -/
def VaultListResultIterator.after (pre : List (Vault × Bool)) (it : VaultListResultIterator) :
    VaultListResultIterator :=
  pre.foldr (fun p acc => VaultListResultIterator.item p.1 p.2 acc) it

/-- The current value of the iterator (`Value()` while `NotDone()`). -/
def VaultListResultIterator.current : VaultListResultIterator → Option Vault
  | VaultListResultIterator.done => none
  | VaultListResultIterator.item v _ _ => some v
  | VaultListResultIterator.stuck v _ => some v

/-- The point lookup the reverse resolver makes for a list entry: the entry has an
identifier, the identifier parses, and `client.Get` for the parsed resource group and
`Path["vaults"]` (zero value `""` when absent) returned `(get, err)`. -/
def LooksUp (parse : String → Except ForeignError ResourceID) (client : VaultsClient)
    (v : Vault) (get : Vault) (err : Option ForeignError) : Prop :=
  ∃ vID vid, v.ID = some vID ∧ parse vID = Except.ok vid ∧
    client.Get vid.ResourceGroup ((vid.Path.lookup "vaults").getD "") = (get, err)

/-- The record has properties and a vault URI, and the URI is `uri`. -/
def HasURI (get : Vault) (uri : String) : Prop :=
  ∃ props, get.Properties = some props ∧ props.VaultURI = some uri

/-- A record is complete for the reverse resolver when its identifier, its properties and
its vault URI are all present (line 75). -/
def Complete (get : Vault) (getID uri : String) : Prop :=
  get.ID = some getID ∧ HasURI get uri

/-- The candidate `v` is a match for `url`: its point lookup succeeds with a complete
record, carrying identifier `getID`, whose vault URI is `url`. -/
def Matches (parse : String → Except ForeignError ResourceID) (client : VaultsClient)
    (url : String) (v : Vault) (getID : String) : Prop :=
  ∃ get, LooksUp parse client v get none ∧ Complete get getID url

/-- The four per-candidate failures: no identifier, an identifier that does not parse, a
point lookup that fails, a point lookup whose record is incomplete. -/
def Skipped (parse : String → Except ForeignError ResourceID) (client : VaultsClient)
    (v : Vault) : Prop :=
  v.ID = none ∨
  (∃ vID e, v.ID = some vID ∧ parse vID = Except.error e) ∨
  (∃ get e, LooksUp parse client v get (some e)) ∨
  (∃ get, LooksUp parse client v get none ∧
    (get.ID = none ∨ get.Properties = none ∨
      ∃ props, get.Properties = some props ∧ props.VaultURI = none))

/-- The candidate's point lookup succeeds with a complete record whose vault URI is not
`url`. -/
def OtherURI (parse : String → Except ForeignError ResourceID) (client : VaultsClient)
    (url : String) (v : Vault) : Prop :=
  ∃ get getID uri, LooksUp parse client v get none ∧ Complete get getID uri ∧ uri ≠ url

/-- The calls the reverse resolver issues for one list entry: none when the entry has no
identifier, the parser alone when the identifier does not parse, the parser and one point
lookup otherwise. -/
def lookupCalls (parse : String → Except ForeignError ResourceID) (v : Vault) : List Call :=
  match v.ID with
  | none => []
  | some vID =>
    match parse vID with
    | Except.error _ => [Call.Parse vID]
    | Except.ok vid =>
      [Call.Parse vID, Call.Get vid.ResourceGroup ((vid.Path.lookup "vaults").getD "")]

/-- The calls of a scan that visits every value of the iterator: for each value its
lookup calls followed by one advance. -/
def VaultListResultIterator.visitCalls (parse : String → Except ForeignError ResourceID) :
    VaultListResultIterator → List Call
  | VaultListResultIterator.done => []
  | VaultListResultIterator.item v paged rest =>
    lookupCalls parse v ++ Call.NextWithContext paged :: rest.visitCalls parse
  | VaultListResultIterator.stuck v _ => lookupCalls parse v ++ [Call.NextWithContext true]

/-- An advance of the iterator. -/
def Call.isAdvance : Call → Bool
  | Call.NextWithContext _ => true
  | _ => false

/-- An advance of the iterator that requests a further page from the service. -/
def Call.isPageAdvance : Call → Bool
  | Call.NextWithContext paged => paged
  | _ => false

/-- The page, counted from 1, on which the value reached after the advances of `pre`
lies: one more than the number of those advances that requested a further page. -/
def pageAfter (pre : List (Vault × Bool)) : Nat :=
  (pre.filter (fun p => p.2)).length + 1

/-- Two enumerations agree on every entry's identifier and on the outcome of every
advance; the other fields of the entries (response, properties, vault URI) are free. -/
def VaultListResultIterator.SameIDs :
    VaultListResultIterator → VaultListResultIterator → Prop
  | VaultListResultIterator.done, VaultListResultIterator.done => True
  | VaultListResultIterator.item v paged rest, VaultListResultIterator.item v2 paged2 rest2 =>
    v.ID = v2.ID ∧ paged = paged2 ∧ VaultListResultIterator.SameIDs rest rest2
  | VaultListResultIterator.stuck v e, VaultListResultIterator.stuck v2 e2 =>
    v.ID = v2.ID ∧ e = e2
  | _, _ => False

/-! ## Sample collaborators

Concrete parsers and clients on which the statements below are evaluated. -/

/-- Identifier of the vault `kv1` in resource group `rg1`. -/
def idKv1 : String :=
  "/subscriptions/s1/resourceGroups/rg1/providers/Microsoft.KeyVault/vaults/kv1"

/-- Identifier of the vault `kv2` in resource group `rg1`. -/
def idKv2 : String :=
  "/subscriptions/s1/resourceGroups/rg1/providers/Microsoft.KeyVault/vaults/kv2"

/-- Identifier of a resource that is not a vault. -/
def idWeb1 : String :=
  "/subscriptions/s1/resourceGroups/rg1/providers/Microsoft.Web/sites/web1"

/-- Data-plane URI of `kv1`. -/
def uriKv1 : String := "https://kv1.vault.azure.net/"

/-- Data-plane URI of `kv2`. -/
def uriKv2 : String := "https://kv2.vault.azure.net/"

/-- A parser stub that knows the three sample identifiers and rejects everything else. -/
def stubParse (s : String) : Except ForeignError ResourceID :=
  if s = idKv1 then
    Except.ok ⟨"s1", "rg1", "Microsoft.KeyVault", [("vaults", "kv1")]⟩
  else if s = idKv2 then
    Except.ok ⟨"s1", "rg1", "Microsoft.KeyVault", [("vaults", "kv2")]⟩
  else if s = idWeb1 then
    Except.ok ⟨"s1", "rg1", "Microsoft.Web", [("sites", "web1")]⟩
  else
    Except.error ⟨"cannot parse Azure ID"⟩

/-- The record the service holds for a vault. -/
def record (id uri : String) : Vault :=
  ⟨⟨false⟩, some id, some ⟨some uri⟩⟩

/-- A list entry as the listing returns it: an identifier and no properties. -/
def listed (id : String) : Vault :=
  ⟨⟨false⟩, some id, none⟩

/-- The response of a point lookup for a vault the service does not have. -/
def absentResponse : Vault × Option ForeignError :=
  (⟨⟨true⟩, none, none⟩, some ⟨"StatusCode=404"⟩)

/-- A service with no vault at all. -/
def emptyClient : VaultsClient where
  Get := fun _ _ => absentResponse
  ListComplete := fun _ => (VaultListResultIterator.done, none)

/-- A service with the single vault `kv1`, whose point lookup answers without error but
with a record that has properties and no vault URI. -/
def noUriClient : VaultsClient where
  Get := fun rg name =>
    if rg = "rg1" ∧ name = "kv1" then (⟨⟨false⟩, some idKv1, some ⟨none⟩⟩, none)
    else absentResponse
  ListComplete := fun _ =>
    (VaultListResultIterator.item (listed idKv1) false
      VaultListResultIterator.done, none)

/-- A service with the single vault `kv1`, whose record reports the empty string as its
vault URI. -/
def emptyUriClient : VaultsClient where
  Get := fun rg name =>
    if rg = "rg1" ∧ name = "kv1" then (record idKv1 "", none) else absentResponse
  ListComplete := fun _ =>
    (VaultListResultIterator.item (listed idKv1) false
      VaultListResultIterator.done, none)

/-- A service with the two vaults `kv1` and `kv2`, listed in that order on one page. -/
def twoVaultClient : VaultsClient where
  Get := fun rg name =>
    if rg = "rg1" ∧ name = "kv1" then (record idKv1 uriKv1, none)
    else if rg = "rg1" ∧ name = "kv2" then (record idKv2 uriKv2, none)
    else absentResponse
  ListComplete := fun _ =>
    (VaultListResultIterator.item (listed idKv1) false
      (VaultListResultIterator.item (listed idKv2) false
        VaultListResultIterator.done), none)

/-- A listing of five entries over two pages: an entry without identifier, an entry whose
identifier does not parse, `kv2` (whose point lookup fails), a web site (whose point
lookup, made with the empty vault name, answers with an incomplete record) and `kv1`. -/
def skipClient : VaultsClient where
  Get := fun rg name =>
    if rg = "rg1" ∧ name = "kv1" then (record idKv1 uriKv1, none)
    else if rg = "rg1" ∧ name = "kv2" then (⟨⟨false⟩, none, none⟩, some ⟨"StatusCode=500"⟩)
    else if rg = "rg1" ∧ name = "" then (⟨⟨false⟩, none, none⟩, none)
    else absentResponse
  ListComplete := fun _ =>
    (VaultListResultIterator.item ⟨⟨false⟩, none, none⟩ false
      (VaultListResultIterator.item (listed "not-an-identifier") false
        (VaultListResultIterator.item (listed idKv2) true
          (VaultListResultIterator.item (listed idWeb1) false
            (VaultListResultIterator.item (listed idKv1) false
              VaultListResultIterator.done)))), none)

/-- The identifier of `kv1` with the casing the service uses in its point-lookup record. -/
def idKv1Service : String :=
  "/subscriptions/s1/resourcegroups/RG1/providers/Microsoft.KeyVault/vaults/kv1"

/-- A service with the single vault `kv1`, whose point-lookup record spells the vault's
identifier differently from the listing. -/
def recasingClient : VaultsClient where
  Get := fun rg name =>
    if rg = "rg1" ∧ name = "kv1" then (record idKv1Service uriKv1, none) else absentResponse
  ListComplete := fun _ =>
    (VaultListResultIterator.item (listed idKv1) false VaultListResultIterator.done, none)

/-- A service that lists `kv2` and then fails to deliver the following page. -/
def stuckClient : VaultsClient where
  Get := fun rg name =>
    if rg = "rg1" ∧ name = "kv1" then (record idKv1 uriKv1, none)
    else if rg = "rg1" ∧ name = "kv2" then (record idKv2 uriKv2, none)
    else absentResponse
  ListComplete := fun _ =>
    (VaultListResultIterator.stuck (listed idKv2) ⟨"connection reset by peer"⟩, none)

/-- A service with the single vault `kv1`, listed with its identifier, whose point-lookup
record has the vault URI and no identifier. -/
def noIdClient : VaultsClient where
  Get := fun rg name =>
    if rg = "rg1" ∧ name = "kv1" then (⟨⟨false⟩, none, some ⟨some uriKv1⟩⟩, none)
    else absentResponse
  ListComplete := fun _ =>
    (VaultListResultIterator.item (listed idKv1) false VaultListResultIterator.done, none)

/-- The service of `twoVaultClient` with a listing of two pages: `kv1` on the first,
`kv2` on the second. -/
def twoPageClient : VaultsClient where
  Get := twoVaultClient.Get
  ListComplete := fun _ =>
    (VaultListResultIterator.item (listed idKv1) true
      (VaultListResultIterator.item (listed idKv2) false
        VaultListResultIterator.done), none)

/-- The service of `twoVaultClient` with a listing whose entries carry misleading
properties: each entry shows the vault URI of the other vault. -/
def decoyListClient : VaultsClient where
  Get := twoVaultClient.Get
  ListComplete := fun _ =>
    (VaultListResultIterator.item (record idKv1 uriKv2) false
      (VaultListResultIterator.item (record idKv2 uriKv1) false
        VaultListResultIterator.done), none)

/-- A service whose listing holds a web site, and whose point lookup for resource group
`rg1` and the empty vault name answers with a complete record. -/
def emptyNameClient : VaultsClient where
  Get := fun rg name =>
    if rg = "rg1" ∧ name = "" then (record idWeb1 uriKv1, none) else absentResponse
  ListComplete := fun _ =>
    (VaultListResultIterator.item (listed idWeb1) false VaultListResultIterator.done, none)

/-- Identifier of the vault `kv3` in resource group `rg1`. -/
def idKv3 : String :=
  "/subscriptions/s1/resourceGroups/rg1/providers/Microsoft.KeyVault/vaults/kv3"

/-- The parser stub extended with the identifier of `kv3`. -/
def widerParse (s : String) : Except ForeignError ResourceID :=
  if s = idKv3 then
    Except.ok ⟨"s1", "rg1", "Microsoft.KeyVault", [("vaults", "kv3")]⟩
  else
    stubParse s

/-- A service with the healthy vaults `kv1` and `kv2`, a vault `kv3` whose point lookup
fails, and an incomplete record behind the empty vault name.  Its listing, over two pages,
starts with the healthy vault `kv2`; then come an entry without identifier, an entry whose
identifier does not parse, `kv3`, a web site (looked up with the empty vault name), and
`kv1`. -/
def mixedClient : VaultsClient where
  Get := fun rg name =>
    if rg = "rg1" ∧ name = "kv1" then (record idKv1 uriKv1, none)
    else if rg = "rg1" ∧ name = "kv2" then (record idKv2 uriKv2, none)
    else if rg = "rg1" ∧ name = "kv3" then (⟨⟨false⟩, none, none⟩, some ⟨"StatusCode=500"⟩)
    else if rg = "rg1" ∧ name = "" then (⟨⟨false⟩, none, none⟩, none)
    else absentResponse
  ListComplete := fun _ =>
    (VaultListResultIterator.item (listed idKv2) false
      (VaultListResultIterator.item ⟨⟨false⟩, none, none⟩ false
        (VaultListResultIterator.item (listed "not-an-identifier") false
          (VaultListResultIterator.item (listed idKv3) true
            (VaultListResultIterator.item (listed idWeb1) false
              (VaultListResultIterator.item (listed idKv1) false
                VaultListResultIterator.done))))), none)

/-! ## Forward resolver and existence checker: theorems -/

/-- C1. Absence asymmetry: for a non-empty identifier that parses and has a `vaults` entry,
when the point lookup for the parsed resource group and vault name fails and the response
is a not-found response, `GetKeyVaultBaseUrlFromID` returns the empty string with the
"unable to find" (NotFound) error, which carries the vault name, the resource group and
the lookup's error, while `KeyVaultExists` returns `(false, nil)`. -/
theorem absence_asymmetry (parse : String → Except ForeignError ResourceID)
    (client : VaultsClient) (keyVaultId : String) (id : ResourceID) (vaultName : String)
    (resp : Vault) (err : ForeignError)
    (hne : keyVaultId ≠ "")
    (hparse : parse keyVaultId = Except.ok id)
    (hvault : id.Path.lookup "vaults" = some vaultName)
    (hget : client.Get id.ResourceGroup vaultName = (resp, some err))
    (habsent : ResponseWasNotFound resp.Response = true) :
    (GetKeyVaultBaseUrlFromID parse client keyVaultId).val = "" ∧
    (GetKeyVaultBaseUrlFromID parse client keyVaultId).err =
      some (Error.Errorf "Error unable to find KeyVault %q (Resource Group %q): %+v"
        [FmtArg.str vaultName, FmtArg.str id.ResourceGroup, FmtArg.err (some err)]) ∧
    (KeyVaultExists parse client keyVaultId).val = false ∧
    (KeyVaultExists parse client keyVaultId).err = none := by
  simp [GetKeyVaultBaseUrlFromID, KeyVaultExists, hne, hparse, hvault, hget, habsent]

/-- Witness of C1: the vault `kv1` looked up in a service that has no vault. -/
theorem absence_asymmetry_witness :
    (GetKeyVaultBaseUrlFromID stubParse emptyClient idKv1).val = "" ∧
    (GetKeyVaultBaseUrlFromID stubParse emptyClient idKv1).err =
      some (Error.Errorf "Error unable to find KeyVault %q (Resource Group %q): %+v"
        [FmtArg.str "kv1", FmtArg.str "rg1", FmtArg.err (some ⟨"StatusCode=404"⟩)]) ∧
    (KeyVaultExists stubParse emptyClient idKv1).val = false ∧
    (KeyVaultExists stubParse emptyClient idKv1).err = none :=
  absence_asymmetry stubParse emptyClient idKv1
    ⟨"s1", "rg1", "Microsoft.KeyVault", [("vaults", "kv1")]⟩ "kv1" ⟨⟨true⟩, none, none⟩
    ⟨"StatusCode=404"⟩ (by decide) rfl rfl rfl rfl

/-- C2. Empty identifier: whatever the parser and the client are,
`GetKeyVaultBaseUrlFromID ""` and `KeyVaultExists ""` fail with the error
`keyVaultId is empty`, and they issue no call at all: the parser is not consulted and
no point lookup or other network call is made. -/
theorem empty_identifier (parse : String → Except ForeignError ResourceID)
    (client : VaultsClient) :
    GetKeyVaultBaseUrlFromID parse client "" =
      ⟨"", some (Error.Errorf "keyVaultId is empty" []), []⟩ ∧
    KeyVaultExists parse client "" =
      ⟨false, some (Error.Errorf "keyVaultId is empty" []), []⟩ := by
  simp [GetKeyVaultBaseUrlFromID, KeyVaultExists]

/-- C3. Missing path segment: for a non-empty identifier that parses to a ResourceID whose
path has no `vaults` key, `GetKeyVaultBaseUrlFromID` returns `""` and `KeyVaultExists`
returns `false`, both with the error "resource id does not contain vaults" carrying the
identifier, and the only call either issues is the one to the parser: no network call. -/
theorem missing_vaults_segment (parse : String → Except ForeignError ResourceID)
    (client : VaultsClient) (keyVaultId : String) (id : ResourceID)
    (hne : keyVaultId ≠ "")
    (hparse : parse keyVaultId = Except.ok id)
    (hvault : id.Path.lookup "vaults" = none) :
    GetKeyVaultBaseUrlFromID parse client keyVaultId =
      ⟨"", some (Error.Errorf "resource id does not contain `vaults`: %q"
        [FmtArg.str keyVaultId]), [Call.Parse keyVaultId]⟩ ∧
    KeyVaultExists parse client keyVaultId =
      ⟨false, some (Error.Errorf "resource id does not contain `vaults`: %q"
        [FmtArg.str keyVaultId]), [Call.Parse keyVaultId]⟩ ∧
    (GetKeyVaultBaseUrlFromID parse client keyVaultId).calls.filter Call.isNetwork = [] ∧
    (KeyVaultExists parse client keyVaultId).calls.filter Call.isNetwork = [] := by
  simp [GetKeyVaultBaseUrlFromID, KeyVaultExists, hne, hparse, hvault, Call.isNetwork]

/-- Witness of C3: the identifier of a web site, which parses and has no `vaults` key. -/
theorem missing_vaults_segment_witness :
    GetKeyVaultBaseUrlFromID stubParse twoVaultClient idWeb1 =
      ⟨"", some (Error.Errorf "resource id does not contain `vaults`: %q"
        [FmtArg.str idWeb1]), [Call.Parse idWeb1]⟩ ∧
    KeyVaultExists stubParse twoVaultClient idWeb1 =
      ⟨false, some (Error.Errorf "resource id does not contain `vaults`: %q"
        [FmtArg.str idWeb1]), [Call.Parse idWeb1]⟩ ∧
    (GetKeyVaultBaseUrlFromID stubParse twoVaultClient idWeb1).calls.filter
      Call.isNetwork = [] ∧
    (KeyVaultExists stubParse twoVaultClient idWeb1).calls.filter Call.isNetwork = [] :=
  missing_vaults_segment stubParse twoVaultClient idWeb1
    ⟨"s1", "rg1", "Microsoft.Web", [("sites", "web1")]⟩ (by decide) rfl rfl

/-- C4. Inconsistent record: for a non-empty identifier that parses and has a `vaults`
entry, when the point lookup returns no error but the response has no properties, or
properties with no VaultURI, `GetKeyVaultBaseUrlFromID` returns the empty string and the
error "response properties or VaultURI is nil" carrying the identifier; it does not
report success. -/
theorem inconsistent_record (parse : String → Except ForeignError ResourceID)
    (client : VaultsClient) (keyVaultId : String) (id : ResourceID) (vaultName : String)
    (resp : Vault)
    (hne : keyVaultId ≠ "")
    (hparse : parse keyVaultId = Except.ok id)
    (hvault : id.Path.lookup "vaults" = some vaultName)
    (hget : client.Get id.ResourceGroup vaultName = (resp, none))
    (hincomplete : resp.Properties = none ∨
      ∃ props, resp.Properties = some props ∧ props.VaultURI = none) :
    (GetKeyVaultBaseUrlFromID parse client keyVaultId).val = "" ∧
    (GetKeyVaultBaseUrlFromID parse client keyVaultId).err =
      some (Error.Errorf "vault (%s) response properties or VaultURI is nil"
        [FmtArg.str keyVaultId]) ∧
    (GetKeyVaultBaseUrlFromID parse client keyVaultId).err ≠ none := by
  rcases hincomplete with h | ⟨props, h, hu⟩ <;>
    simp [GetKeyVaultBaseUrlFromID, hne, hparse, hvault, hget, h, *]

/-- Witness of C4: `kv1` in a service whose record for it has properties without a URI. -/
theorem inconsistent_record_witness :
    (GetKeyVaultBaseUrlFromID stubParse noUriClient idKv1).val = "" ∧
    (GetKeyVaultBaseUrlFromID stubParse noUriClient idKv1).err =
      some (Error.Errorf "vault (%s) response properties or VaultURI is nil"
        [FmtArg.str idKv1]) ∧
    (GetKeyVaultBaseUrlFromID stubParse noUriClient idKv1).err ≠ none :=
  inconsistent_record stubParse noUriClient idKv1
    ⟨"s1", "rg1", "Microsoft.KeyVault", [("vaults", "kv1")]⟩ "kv1"
    ⟨⟨false⟩, some idKv1, some ⟨none⟩⟩ (by decide) rfl rfl rfl
    (Or.inr ⟨⟨none⟩, rfl, rfl⟩)

/-- C5, as stated, fails: a point lookup that reports the empty string as the vault URI
makes `GetKeyVaultBaseUrlFromID` return without error, and the string returned is empty. -/
theorem success_uri_may_be_empty :
    (GetKeyVaultBaseUrlFromID stubParse emptyUriClient idKv1).err = none ∧
    (GetKeyVaultBaseUrlFromID stubParse emptyUriClient idKv1).val = "" ∧
    emptyUriClient.Get "rg1" "kv1" = (record idKv1 "", none) := by
  refine ⟨rfl, rfl, rfl⟩

/-- A successful return of `GetKeyVaultBaseUrlFromID` comes from the last line of the
function: every check before it passed and the value is the URI of the response. -/
theorem forward_ok_inv (parse : String → Except ForeignError ResourceID)
    (client : VaultsClient) (keyVaultId : String)
    (hok : (GetKeyVaultBaseUrlFromID parse client keyVaultId).err = none) :
    ∃ id vaultName resp props,
      keyVaultId ≠ "" ∧
      parse keyVaultId = Except.ok id ∧
      id.Path.lookup "vaults" = some vaultName ∧
      client.Get id.ResourceGroup vaultName = (resp, none) ∧
      resp.Properties = some props ∧
      props.VaultURI = some (GetKeyVaultBaseUrlFromID parse client keyVaultId).val := by
  unfold GetKeyVaultBaseUrlFromID at hok ⊢
  by_cases hne : keyVaultId = ""
  · simp [hne] at hok
  · cases hparse : parse keyVaultId with
    | error e => simp [hne, hparse] at hok
    | ok id =>
      cases hvault : id.Path.lookup "vaults" with
      | none => simp [hne, hparse, hvault] at hok
      | some vaultName =>
        rcases hget : client.Get id.ResourceGroup vaultName with ⟨resp, _ | e⟩
        · cases hprops : resp.Properties with
          | none => simp [hne, hparse, hvault, hget, hprops] at hok
          | some props =>
            cases huri : props.VaultURI with
            | none => simp [hne, hparse, hvault, hget, hprops, huri] at hok
            | some uri =>
              refine ⟨id, vaultName, resp, props, hne, rfl, hvault, hget, hprops, ?_⟩
              simp [hne, hvault, hget, hprops, huri]
        · by_cases hnf : ResponseWasNotFound resp.Response = true <;>
            simp [hne, hparse, hvault, hget, hnf] at hok

/-- C5, amended. Whenever `GetKeyVaultBaseUrlFromID` returns without error, the identifier
is non-empty, parses and has a `vaults` entry, the point lookup for the parsed resource
group and that `vaults` name returned no error, and the string returned is exactly the
VaultURI of that response, unchanged; so it is non-empty exactly when the reported URI
is. -/
theorem success_returns_reported_uri (parse : String → Except ForeignError ResourceID)
    (client : VaultsClient) (keyVaultId : String)
    (hok : (GetKeyVaultBaseUrlFromID parse client keyVaultId).err = none) :
    ∃ id vaultName resp props,
      keyVaultId ≠ "" ∧
      parse keyVaultId = Except.ok id ∧
      id.Path.lookup "vaults" = some vaultName ∧
      client.Get id.ResourceGroup vaultName = (resp, none) ∧
      resp.Properties = some props ∧
      props.VaultURI = some (GetKeyVaultBaseUrlFromID parse client keyVaultId).val :=
  forward_ok_inv parse client keyVaultId hok

/-- Witness of C5 amended: `kv1` resolved in a service that holds `kv1` and `kv2`. -/
theorem success_returns_reported_uri_witness :
    ∃ id vaultName resp props,
      idKv1 ≠ "" ∧
      stubParse idKv1 = Except.ok id ∧
      id.Path.lookup "vaults" = some vaultName ∧
      twoVaultClient.Get id.ResourceGroup vaultName = (resp, none) ∧
      resp.Properties = some props ∧
      props.VaultURI = some (GetKeyVaultBaseUrlFromID stubParse twoVaultClient idKv1).val :=
  success_returns_reported_uri stubParse twoVaultClient idKv1 rfl

/-! ## Reverse resolver: the candidate step -/

/-- The candidate step reports an identifier exactly for a match, and the identifier it
reports is the one carried by the point-lookup record. -/
theorem candidate_eq_some_iff (parse : String → Except ForeignError ResourceID)
    (client : VaultsClient) (url : String) (v : Vault) (getID : String) :
    (GetKeyVaultIDFromBaseUrl.candidate parse client url v).1 = some getID ↔
      Matches parse client url v getID := by
  unfold GetKeyVaultIDFromBaseUrl.candidate Matches LooksUp Complete HasURI
  cases hid : v.ID with
  | none => simp
  | some vID =>
    cases hparse : parse vID with
    | error e => simp [hparse]
    | ok vid =>
      rcases hget : client.Get vid.ResourceGroup ((vid.Path.lookup "vaults").getD "")
        with ⟨get, _ | e⟩
      · cases hgid : get.ID with
        | none => simp [hparse, hget, hgid]
        | some gid =>
          cases hprops : get.Properties with
          | none => simp [hparse, hget, hgid, hprops]
          | some props =>
            cases huri : props.VaultURI with
            | none => simp [hparse, hget, hgid, hprops, huri]
            | some uri =>
              by_cases hu : url = uri
              · subst hu; simp [hparse, hget, hgid, hprops, huri]
              · have hu2 : ¬ uri = url := fun h => hu h.symm
                simp [hparse, hget, hgid, hprops, huri, hu, hu2]
      · simp [hparse, hget]

/-- The candidate step reports nothing exactly when the candidate is skipped or its lookup
reports another URI. -/
theorem candidate_eq_none_iff (parse : String → Except ForeignError ResourceID)
    (client : VaultsClient) (url : String) (v : Vault) :
    (GetKeyVaultIDFromBaseUrl.candidate parse client url v).1 = none ↔
      Skipped parse client v ∨ OtherURI parse client url v := by
  unfold GetKeyVaultIDFromBaseUrl.candidate Skipped OtherURI LooksUp Complete HasURI
  cases hid : v.ID with
  | none => simp
  | some vID =>
    cases hparse : parse vID with
    | error e => simp [hparse]
    | ok vid =>
      rcases hget : client.Get vid.ResourceGroup ((vid.Path.lookup "vaults").getD "")
        with ⟨get, _ | e⟩
      · cases hgid : get.ID with
        | none => simp [hparse, hget, hgid]
        | some gid =>
          cases hprops : get.Properties with
          | none => simp [hparse, hget, hgid, hprops]
          | some props =>
            cases huri : props.VaultURI with
            | none => simp [hparse, hget, hgid, hprops, huri]
            | some uri =>
              by_cases hu : url = uri
              · subst hu; simp [hparse, hget, hgid, hprops, huri]
              · have hu2 : ¬ uri = url := fun h => hu h.symm
                simp [hparse, hget, hgid, hprops, huri, hu]
                exact ⟨gid, uri, ⟨rfl, rfl⟩, hu2⟩
      · simp [hparse, hget]

/-- The calls of the candidate step depend on the entry and the parser only. -/
theorem candidate_calls (parse : String → Except ForeignError ResourceID)
    (client : VaultsClient) (url : String) (v : Vault) :
    (GetKeyVaultIDFromBaseUrl.candidate parse client url v).2 = lookupCalls parse v := by
  unfold GetKeyVaultIDFromBaseUrl.candidate lookupCalls
  cases hid : v.ID with
  | none => simp
  | some vID =>
    cases hparse : parse vID with
    | error e => simp [hparse]
    | ok vid =>
      rcases hget : client.Get vid.ResourceGroup ((vid.Path.lookup "vaults").getD "")
        with ⟨get, _ | e⟩
      · cases hgid : get.ID with
        | none => simp [hparse, hget, hgid]
        | some gid =>
          cases hprops : get.Properties with
          | none => simp [hparse, hget, hgid, hprops]
          | some props =>
            cases huri : props.VaultURI with
            | none => simp [hparse, hget, hgid, hprops, huri]
            | some uri =>
              by_cases hu : url = uri <;> simp [hparse, hget, hgid, hprops, huri, hu]
      · simp [hparse, hget]

/-! ## Reverse resolver: the loop -/

/-- One turn of the loop on a value the candidate step reports. -/
theorem loop_current_match (parse : String → Except ForeignError ResourceID)
    (client : VaultsClient) (url : String) (err : Option ForeignError)
    (it : VaultListResultIterator) (m : Vault) (id : String)
    (hcur : it.current = some m)
    (hm : (GetKeyVaultIDFromBaseUrl.candidate parse client url m).1 = some id) :
    GetKeyVaultIDFromBaseUrl.loop parse client url err it =
      ⟨some id, none, lookupCalls parse m⟩ := by
  have hc := candidate_calls parse client url m
  cases it with
  | done => simp [VaultListResultIterator.current] at hcur
  | item v paged rest =>
    simp only [VaultListResultIterator.current, Option.some.injEq] at hcur
    subst hcur
    rcases hcand : GetKeyVaultIDFromBaseUrl.candidate parse client url v with ⟨o, cs⟩
    rw [hcand] at hm hc
    simp only at hm hc
    subst hm; subst hc
    simp [GetKeyVaultIDFromBaseUrl.loop, hcand]
  | stuck v e =>
    simp only [VaultListResultIterator.current, Option.some.injEq] at hcur
    subst hcur
    rcases hcand : GetKeyVaultIDFromBaseUrl.candidate parse client url v with ⟨o, cs⟩
    rw [hcand] at hm hc
    simp only at hm hc
    subst hm; subst hc
    simp [GetKeyVaultIDFromBaseUrl.loop, hcand]

/-- One turn of the loop on a value the candidate step does not report, when the advance
succeeds. -/
theorem loop_item_skip (parse : String → Except ForeignError ResourceID)
    (client : VaultsClient) (url : String) (err : Option ForeignError)
    (v : Vault) (paged : Bool) (rest : VaultListResultIterator)
    (hv : (GetKeyVaultIDFromBaseUrl.candidate parse client url v).1 = none) :
    GetKeyVaultIDFromBaseUrl.loop parse client url err
        (VaultListResultIterator.item v paged rest) =
      ⟨(GetKeyVaultIDFromBaseUrl.loop parse client url err rest).val,
       (GetKeyVaultIDFromBaseUrl.loop parse client url err rest).err,
       lookupCalls parse v ++ Call.NextWithContext paged ::
         (GetKeyVaultIDFromBaseUrl.loop parse client url err rest).calls⟩ := by
  have hc := candidate_calls parse client url v
  rcases hcand : GetKeyVaultIDFromBaseUrl.candidate parse client url v with ⟨o, cs⟩
  rw [hcand] at hv hc
  simp only at hv hc
  subst hv; subst hc
  simp [GetKeyVaultIDFromBaseUrl.loop, hcand]

/-- One turn of the loop on a value the candidate step does not report, when the advance
fails: the error is built from the target URI and the variable `err`. -/
theorem loop_stuck_skip (parse : String → Except ForeignError ResourceID)
    (client : VaultsClient) (url : String) (err : Option ForeignError)
    (v : Vault) (e : ForeignError)
    (hv : (GetKeyVaultIDFromBaseUrl.candidate parse client url v).1 = none) :
    GetKeyVaultIDFromBaseUrl.loop parse client url err (VaultListResultIterator.stuck v e) =
      ⟨none, some (Error.Errorf
        "Error GetKeyVaultId: Error getting next vault on KeyVault url %q : %+v"
        [FmtArg.str url, FmtArg.err err]),
       lookupCalls parse v ++ [Call.NextWithContext true]⟩ := by
  have hc := candidate_calls parse client url v
  rcases hcand : GetKeyVaultIDFromBaseUrl.candidate parse client url v with ⟨o, cs⟩
  rw [hcand] at hv hc
  simp only at hv hc
  subst hv; subst hc
  simp [GetKeyVaultIDFromBaseUrl.loop, hcand]

/-- The loop walks through a prefix of unreported values whose advances succeed. -/
theorem loop_after (parse : String → Except ForeignError ResourceID)
    (client : VaultsClient) (url : String) (err : Option ForeignError)
    (pre : List (Vault × Bool)) (it : VaultListResultIterator)
    (hpre : ∀ p ∈ pre, (GetKeyVaultIDFromBaseUrl.candidate parse client url p.1).1 = none) :
    (GetKeyVaultIDFromBaseUrl.loop parse client url err
        (VaultListResultIterator.after pre it)).val =
      (GetKeyVaultIDFromBaseUrl.loop parse client url err it).val ∧
    (GetKeyVaultIDFromBaseUrl.loop parse client url err
        (VaultListResultIterator.after pre it)).err =
      (GetKeyVaultIDFromBaseUrl.loop parse client url err it).err := by
  induction pre with
  | nil => simp [VaultListResultIterator.after]
  | cons p pre ih =>
    have hp := hpre p (List.mem_cons_self _ _)
    have ih2 := ih (fun q hq => hpre q (List.mem_cons_of_mem _ hq))
    have hstep := loop_item_skip parse client url err p.1 p.2
      (VaultListResultIterator.after pre it) hp
    have hafter : VaultListResultIterator.after (p :: pre) it =
        VaultListResultIterator.item p.1 p.2 (VaultListResultIterator.after pre it) := rfl
    rw [hafter, hstep]
    exact ih2

/-- The calls of the loop over a prefix of unreported values whose advances succeed: the
visit of the prefix, then the calls of the loop on what follows. -/
theorem loop_after_calls (parse : String → Except ForeignError ResourceID)
    (client : VaultsClient) (url : String) (err : Option ForeignError)
    (pre : List (Vault × Bool)) (it : VaultListResultIterator)
    (hpre : ∀ p ∈ pre, (GetKeyVaultIDFromBaseUrl.candidate parse client url p.1).1 = none) :
    (GetKeyVaultIDFromBaseUrl.loop parse client url err
        (VaultListResultIterator.after pre it)).calls =
      (VaultListResultIterator.after pre VaultListResultIterator.done).visitCalls parse ++
        (GetKeyVaultIDFromBaseUrl.loop parse client url err it).calls := by
  induction pre with
  | nil => simp [VaultListResultIterator.after, VaultListResultIterator.visitCalls]
  | cons p pre ih =>
    have hp := hpre p (List.mem_cons_self _ _)
    have ih2 := ih (fun q hq => hpre q (List.mem_cons_of_mem _ hq))
    have hafter : ∀ x, VaultListResultIterator.after (p :: pre) x =
        VaultListResultIterator.item p.1 p.2 (VaultListResultIterator.after pre x) :=
      fun _ => rfl
    rw [hafter, hafter, loop_item_skip parse client url err p.1 p.2 _ hp]
    simp only [VaultListResultIterator.visitCalls, ih2, List.append_assoc, List.cons_append]

/-- When no value is reported, the loop visits every value; it ends without error if
every advance succeeds and with the advance error otherwise. -/
theorem loop_no_match (parse : String → Except ForeignError ResourceID)
    (client : VaultsClient) (url : String) (err : Option ForeignError)
    (it : VaultListResultIterator)
    (hno : ∀ v ∈ it.values, (GetKeyVaultIDFromBaseUrl.candidate parse client url v).1 = none) :
    GetKeyVaultIDFromBaseUrl.loop parse client url err it =
      ⟨none,
       if it.completes then none else some (Error.Errorf
        "Error GetKeyVaultId: Error getting next vault on KeyVault url %q : %+v"
        [FmtArg.str url, FmtArg.err err]),
       it.visitCalls parse⟩ := by
  induction it with
  | done =>
    simp [GetKeyVaultIDFromBaseUrl.loop, VaultListResultIterator.completes,
      VaultListResultIterator.visitCalls]
  | item v paged rest ih =>
    have hv := hno v (by simp [VaultListResultIterator.values])
    have ih2 := ih (fun w hw => hno w (by simp [VaultListResultIterator.values, hw]))
    rw [loop_item_skip parse client url err v paged rest hv, ih2]
    simp [VaultListResultIterator.completes, VaultListResultIterator.visitCalls]
  | stuck v e =>
    have hv := hno v (by simp [VaultListResultIterator.values])
    rw [loop_stuck_skip parse client url err v e hv]
    simp [VaultListResultIterator.completes, VaultListResultIterator.visitCalls]

/-- If the loop reports an identifier, the iterator is a prefix of unreported values with
successful advances followed by a value the candidate step reports with that identifier. -/
theorem loop_val_some (parse : String → Except ForeignError ResourceID)
    (client : VaultsClient) (url : String) (err : Option ForeignError)
    (it : VaultListResultIterator) (id : String)
    (h : (GetKeyVaultIDFromBaseUrl.loop parse client url err it).val = some id) :
    ∃ pre it2 m, it = VaultListResultIterator.after pre it2 ∧ it2.current = some m ∧
      (∀ p ∈ pre, (GetKeyVaultIDFromBaseUrl.candidate parse client url p.1).1 = none) ∧
      (GetKeyVaultIDFromBaseUrl.candidate parse client url m).1 = some id := by
  induction it with
  | done => simp [GetKeyVaultIDFromBaseUrl.loop] at h
  | item v paged rest ih =>
    cases hv : (GetKeyVaultIDFromBaseUrl.candidate parse client url v).1 with
    | none =>
      rw [loop_item_skip parse client url err v paged rest hv] at h
      obtain ⟨pre, it2, m, hit, hcur, hpre, hm⟩ := ih h
      refine ⟨(v, paged) :: pre, it2, m, ?_, hcur, ?_, hm⟩
      · rw [hit]; rfl
      · intro p hp
        rcases List.mem_cons.mp hp with rfl | hp
        · exact hv
        · exact hpre p hp
    | some id2 =>
      have hl := loop_current_match parse client url err
        (VaultListResultIterator.item v paged rest) v id2 rfl hv
      rw [hl] at h
      simp only [Option.some.injEq] at h
      subst h
      exact ⟨[], VaultListResultIterator.item v paged rest, v, rfl, rfl,
        by simp, hv⟩
  | stuck v e =>
    cases hv : (GetKeyVaultIDFromBaseUrl.candidate parse client url v).1 with
    | none =>
      rw [loop_stuck_skip parse client url err v e hv] at h
      simp at h
    | some id2 =>
      have hl := loop_current_match parse client url err
        (VaultListResultIterator.stuck v e) v id2 rfl hv
      rw [hl] at h
      simp only [Option.some.injEq] at h
      subst h
      exact ⟨[], VaultListResultIterator.stuck v e, v, rfl, rfl, by simp, hv⟩

/-- The loop returns an error only when an advance fails, and the error is then the one
of line 92 with the target URI and the variable `err` as operands. -/
theorem loop_err_some (parse : String → Except ForeignError ResourceID)
    (client : VaultsClient) (url : String) (err : Option ForeignError)
    (it : VaultListResultIterator) (x : Error)
    (h : (GetKeyVaultIDFromBaseUrl.loop parse client url err it).err = some x) :
    it.completes = false ∧
    x = Error.Errorf "Error GetKeyVaultId: Error getting next vault on KeyVault url %q : %+v"
      [FmtArg.str url, FmtArg.err err] := by
  induction it with
  | done => simp [GetKeyVaultIDFromBaseUrl.loop] at h
  | item v paged rest ih =>
    cases hv : (GetKeyVaultIDFromBaseUrl.candidate parse client url v).1 with
    | none =>
      rw [loop_item_skip parse client url err v paged rest hv] at h
      simpa [VaultListResultIterator.completes] using ih h
    | some id2 =>
      rw [loop_current_match parse client url err
        (VaultListResultIterator.item v paged rest) v id2 rfl hv] at h
      simp at h
  | stuck v e =>
    cases hv : (GetKeyVaultIDFromBaseUrl.candidate parse client url v).1 with
    | none =>
      rw [loop_stuck_skip parse client url err v e hv] at h
      simp only [Option.some.injEq] at h
      exact ⟨rfl, h.symm⟩
    | some id2 =>
      rw [loop_current_match parse client url err
        (VaultListResultIterator.stuck v e) v id2 rfl hv] at h
      simp at h

/-- The lookup calls of an entry contain no advance. -/
theorem lookupCalls_no_advance (parse : String → Except ForeignError ResourceID) (v : Vault) :
    (lookupCalls parse v).filter Call.isAdvance = [] := by
  unfold lookupCalls
  cases hid : v.ID with
  | none => simp
  | some vID =>
    cases hparse : parse vID with
    | error e => simp [hparse, Call.isAdvance]
    | ok vid => simp [hparse, Call.isAdvance]

/-- A scan that visits every value advances once per value. -/
theorem visitCalls_advances (parse : String → Except ForeignError ResourceID)
    (it : VaultListResultIterator) :
    ((it.visitCalls parse).filter Call.isAdvance).length = it.values.length := by
  induction it with
  | done => simp [VaultListResultIterator.visitCalls, VaultListResultIterator.values]
  | item v paged rest ih =>
    simp [VaultListResultIterator.visitCalls, VaultListResultIterator.values,
      List.filter_append, lookupCalls_no_advance, List.filter_cons, Call.isAdvance, ih]
  | stuck v e =>
    simp [VaultListResultIterator.visitCalls, VaultListResultIterator.values,
      List.filter_append, lookupCalls_no_advance, Call.isAdvance]

/-- The values of a prefixed iterator. -/
theorem values_after (pre : List (Vault × Bool)) (it : VaultListResultIterator) :
    (VaultListResultIterator.after pre it).values = pre.map Prod.fst ++ it.values := by
  induction pre with
  | nil => rfl
  | cons p pre ih =>
    have h : VaultListResultIterator.after (p :: pre) it =
        VaultListResultIterator.item p.1 p.2 (VaultListResultIterator.after pre it) := rfl
    rw [h]
    simp only [VaultListResultIterator.values, ih, List.map_cons, List.cons_append]

/-- Unfolding of `GetKeyVaultIDFromBaseUrl` when the listing call succeeds. -/
theorem reverse_of_list_ok (parse : String → Except ForeignError ResourceID)
    (client : VaultsClient) (url : String) (list : VaultListResultIterator)
    (hlist : client.ListComplete 1000 = (list, none)) :
    GetKeyVaultIDFromBaseUrl parse client url =
      ⟨(GetKeyVaultIDFromBaseUrl.loop parse client url none list).val,
       (GetKeyVaultIDFromBaseUrl.loop parse client url none list).err,
       Call.ListComplete 1000 ::
         (GetKeyVaultIDFromBaseUrl.loop parse client url none list).calls⟩ := by
  simp [GetKeyVaultIDFromBaseUrl, hlist]

/-- Unfolding of `GetKeyVaultIDFromBaseUrl` when the listing call fails. -/
theorem reverse_of_list_err (parse : String → Except ForeignError ResourceID)
    (client : VaultsClient) (url : String) (list : VaultListResultIterator)
    (e : ForeignError) (hlist : client.ListComplete 1000 = (list, some e)) :
    GetKeyVaultIDFromBaseUrl parse client url =
      ⟨none, some (Error.Errorf "Error GetKeyVaultId unable to list Key Vaults %v"
        [FmtArg.err (some e)]), [Call.ListComplete 1000]⟩ := by
  simp [GetKeyVaultIDFromBaseUrl, hlist]

/-- If the enumeration reaches, through successful advances, a value the candidate step
reports, the loop returns without error the identifier of some value it reports: that
value or an earlier one. -/
theorem loop_reports_before (parse : String → Except ForeignError ResourceID)
    (client : VaultsClient) (url : String) (err : Option ForeignError)
    (pre : List (Vault × Bool)) (it : VaultListResultIterator) (m : Vault) (id : String)
    (hcur : it.current = some m)
    (hm : (GetKeyVaultIDFromBaseUrl.candidate parse client url m).1 = some id) :
    ∃ m2 id2,
      (GetKeyVaultIDFromBaseUrl.loop parse client url err
        (VaultListResultIterator.after pre it)).val = some id2 ∧
      (GetKeyVaultIDFromBaseUrl.loop parse client url err
        (VaultListResultIterator.after pre it)).err = none ∧
      (GetKeyVaultIDFromBaseUrl.candidate parse client url m2).1 = some id2 := by
  induction pre with
  | nil =>
    refine ⟨m, id, ?_, ?_, hm⟩
    · simp [VaultListResultIterator.after,
        loop_current_match parse client url err it m id hcur hm]
    · simp [VaultListResultIterator.after,
        loop_current_match parse client url err it m id hcur hm]
  | cons p pre ih =>
    have hafter : VaultListResultIterator.after (p :: pre) it =
        VaultListResultIterator.item p.1 p.2 (VaultListResultIterator.after pre it) := rfl
    rw [hafter]
    cases hp : (GetKeyVaultIDFromBaseUrl.candidate parse client url p.1).1 with
    | none =>
      rw [loop_item_skip parse client url err p.1 p.2 _ hp]
      exact ih
    | some id3 =>
      refine ⟨p.1, id3, ?_, ?_, hp⟩
      · rw [loop_current_match parse client url err
          (VaultListResultIterator.item p.1 p.2 (VaultListResultIterator.after pre it))
          p.1 id3 rfl hp]
      · rw [loop_current_match parse client url err
          (VaultListResultIterator.item p.1 p.2 (VaultListResultIterator.after pre it))
          p.1 id3 rfl hp]

/-! ## Reverse resolver: theorems -/

/-- C6. Exhaustion without match: when the listing call succeeds, every advance of the
enumeration succeeds, and no entry is a match for the target URI (no entry's point lookup
yields a complete record whose VaultURI is the target), `GetKeyVaultIDFromBaseUrl` returns
`(nil, nil)`, and it does so after visiting every entry: its calls are the listing call
followed, for each entry in order, by that entry's lookup calls and one advance, so there
are as many advances as entries. -/
theorem exhausted_without_match (parse : String → Except ForeignError ResourceID)
    (client : VaultsClient) (url : String) (list : VaultListResultIterator)
    (hlist : client.ListComplete 1000 = (list, none))
    (hcompletes : list.completes = true)
    (hnomatch : ∀ v ∈ list.values, ∀ getID, ¬ Matches parse client url v getID) :
    (GetKeyVaultIDFromBaseUrl parse client url).val = none ∧
    (GetKeyVaultIDFromBaseUrl parse client url).err = none ∧
    (GetKeyVaultIDFromBaseUrl parse client url).calls =
      Call.ListComplete 1000 :: list.visitCalls parse ∧
    ((GetKeyVaultIDFromBaseUrl parse client url).calls.filter Call.isAdvance).length =
      list.values.length := by
  have hno : ∀ v ∈ list.values,
      (GetKeyVaultIDFromBaseUrl.candidate parse client url v).1 = none := by
    intro v hv
    cases hc : (GetKeyVaultIDFromBaseUrl.candidate parse client url v).1 with
    | none => rfl
    | some getID =>
      exact absurd ((candidate_eq_some_iff parse client url v getID).mp hc)
        (hnomatch v hv getID)
  rw [reverse_of_list_ok parse client url list hlist,
    loop_no_match parse client url none list hno]
  simp [hcompletes, List.filter_cons, Call.isAdvance, visitCalls_advances]

/-- Witness of C6: a service with `kv1` and `kv2` asked for the URI of neither. -/
theorem exhausted_without_match_witness :
    (GetKeyVaultIDFromBaseUrl stubParse twoVaultClient "https://kv3.vault.azure.net/").val
      = none ∧
    (GetKeyVaultIDFromBaseUrl stubParse twoVaultClient "https://kv3.vault.azure.net/").err
      = none ∧
    (GetKeyVaultIDFromBaseUrl stubParse twoVaultClient "https://kv3.vault.azure.net/").calls
      = Call.ListComplete 1000 ::
        (VaultListResultIterator.item (listed idKv1) false
          (VaultListResultIterator.item (listed idKv2) false
            VaultListResultIterator.done)).visitCalls stubParse ∧
    ((GetKeyVaultIDFromBaseUrl stubParse twoVaultClient
        "https://kv3.vault.azure.net/").calls.filter Call.isAdvance).length =
      (VaultListResultIterator.item (listed idKv1) false
        (VaultListResultIterator.item (listed idKv2) false
          VaultListResultIterator.done)).values.length :=
  exhausted_without_match stubParse twoVaultClient "https://kv3.vault.azure.net/"
    (VaultListResultIterator.item (listed idKv1) false
      (VaultListResultIterator.item (listed idKv2) false VaultListResultIterator.done))
    rfl rfl
    (by
      intro v hv getID hm
      have hc := (candidate_eq_some_iff stubParse twoVaultClient
        "https://kv3.vault.azure.net/" v getID).mpr hm
      simp only [VaultListResultIterator.values, List.mem_cons, List.mem_singleton,
        List.not_mem_nil, or_false] at hv
      rcases hv with rfl | rfl
      · have h2 : (GetKeyVaultIDFromBaseUrl.candidate stubParse twoVaultClient
          "https://kv3.vault.azure.net/" (listed idKv1)).1 = none := rfl
        rw [h2] at hc
        cases hc
      · have h2 : (GetKeyVaultIDFromBaseUrl.candidate stubParse twoVaultClient
          "https://kv3.vault.azure.net/" (listed idKv2)).1 = none := rfl
        rw [h2] at hc
        cases hc)

/-- C7. Non-fatal skip.  (1) If the listing call succeeds and the enumeration yields,
through successful advances, any number of candidates, each of which either is a failing
one (no identifier, an identifier that does not parse, a failing point lookup, an
incomplete lookup record) or is a healthy vault with another URI, in any order, and then
a candidate that matches the target URI, then the match is returned without error, and
the scan did not stop before it: the calls are the listing call, for each earlier
candidate its lookup calls and one advance, and the lookup calls of the match.
(2) `GetKeyVaultIDFromBaseUrl` returns an error only when the listing call or an advance
of the enumeration fails, whatever the candidates are. -/
theorem skip_is_not_fatal (parse : String → Except ForeignError ResourceID)
    (client : VaultsClient) (url : String) :
    (∀ list pre it m getID,
      client.ListComplete 1000 = (list, none) →
      list = VaultListResultIterator.after pre it →
      it.current = some m →
      (∀ p ∈ pre, Skipped parse client p.1 ∨ OtherURI parse client url p.1) →
      Matches parse client url m getID →
      (GetKeyVaultIDFromBaseUrl parse client url).val = some getID ∧
      (GetKeyVaultIDFromBaseUrl parse client url).err = none ∧
      (GetKeyVaultIDFromBaseUrl parse client url).calls =
        Call.ListComplete 1000 ::
          ((VaultListResultIterator.after pre VaultListResultIterator.done).visitCalls parse
            ++ lookupCalls parse m)) ∧
    (∀ x, (GetKeyVaultIDFromBaseUrl parse client url).err = some x →
      (client.ListComplete 1000).2 ≠ none ∨
      (client.ListComplete 1000).1.completes = false) := by
  constructor
  · intro list pre it m getID hlist hsplit hcur hskip hmatch
    have hpre : ∀ p ∈ pre,
        (GetKeyVaultIDFromBaseUrl.candidate parse client url p.1).1 = none :=
      fun p hp => (candidate_eq_none_iff parse client url p.1).mpr (hskip p hp)
    have hm := (candidate_eq_some_iff parse client url m getID).mpr hmatch
    have hwalk := loop_after parse client url none pre it hpre
    have hcalls := loop_after_calls parse client url none pre it hpre
    have hhit := loop_current_match parse client url none it m getID hcur hm
    rw [reverse_of_list_ok parse client url list hlist, hsplit]
    simp only [hwalk.1, hwalk.2, hcalls, hhit, and_self]
  · intro x hx
    rcases hl : client.ListComplete 1000 with ⟨list, _ | e⟩
    · right
      rw [reverse_of_list_ok parse client url list hl] at hx
      exact (loop_err_some parse client url none list x hx).1
    · left
      simp

/-- Witness of C7: a healthy vault with another URI, then an entry of each failing kind,
then `kv1`, which is returned. -/
theorem skip_is_not_fatal_witness :
    (GetKeyVaultIDFromBaseUrl widerParse mixedClient uriKv1).val = some idKv1 ∧
    (GetKeyVaultIDFromBaseUrl widerParse mixedClient uriKv1).err = none ∧
    (GetKeyVaultIDFromBaseUrl widerParse mixedClient uriKv1).calls =
      Call.ListComplete 1000 ::
        ((VaultListResultIterator.after
            [(listed idKv2, false), (⟨⟨false⟩, none, none⟩, false),
              (listed "not-an-identifier", false), (listed idKv3, true),
              (listed idWeb1, false)]
            VaultListResultIterator.done).visitCalls widerParse
          ++ lookupCalls widerParse (listed idKv1)) :=
  (skip_is_not_fatal widerParse mixedClient uriKv1).1
    (mixedClient.ListComplete 1000).1
    [(listed idKv2, false), (⟨⟨false⟩, none, none⟩, false),
      (listed "not-an-identifier", false), (listed idKv3, true), (listed idWeb1, false)]
    (VaultListResultIterator.item (listed idKv1) false VaultListResultIterator.done)
    (listed idKv1) idKv1 rfl rfl rfl
    (by
      intro p hp
      simp only [List.mem_cons, List.mem_singleton, List.not_mem_nil, or_false] at hp
      rcases hp with rfl | rfl | rfl | rfl | rfl
      · exact Or.inr ⟨record idKv2 uriKv2, idKv2, uriKv2,
          ⟨idKv2, ⟨"s1", "rg1", "Microsoft.KeyVault", [("vaults", "kv2")]⟩, rfl, rfl, rfl⟩,
          ⟨rfl, ⟨some uriKv2⟩, rfl, rfl⟩, by decide⟩
      · exact Or.inl (Or.inl rfl)
      · exact Or.inl (Or.inr (Or.inl
          ⟨"not-an-identifier", ⟨"cannot parse Azure ID"⟩, rfl, rfl⟩))
      · exact Or.inl (Or.inr (Or.inr (Or.inl ⟨⟨⟨false⟩, none, none⟩, ⟨"StatusCode=500"⟩,
          idKv3, ⟨"s1", "rg1", "Microsoft.KeyVault", [("vaults", "kv3")]⟩, rfl, rfl, rfl⟩)))
      · exact Or.inl (Or.inr (Or.inr (Or.inr ⟨⟨⟨false⟩, none, none⟩,
          ⟨idWeb1, ⟨"s1", "rg1", "Microsoft.Web", [("sites", "web1")]⟩, rfl, rfl, rfl⟩,
          Or.inl rfl⟩))))
    ⟨record idKv1 uriKv1,
      ⟨idKv1, ⟨"s1", "rg1", "Microsoft.KeyVault", [("vaults", "kv1")]⟩, rfl, rfl, rfl⟩,
      rfl, ⟨some uriKv1⟩, rfl, rfl⟩

/-- C8, as stated, fails: the identifier returned is the one in the point-lookup record,
not the one of the list entry.  Here the only list entry has identifier `idKv1`, its
point lookup reports the target URI, and the identifier returned is `idKv1Service`. -/
theorem returned_identifier_is_the_lookup_records :
    (GetKeyVaultIDFromBaseUrl stubParse recasingClient uriKv1).val = some idKv1Service ∧
    (GetKeyVaultIDFromBaseUrl stubParse recasingClient uriKv1).err = none ∧
    (recasingClient.ListComplete 1000).1.values.map Vault.ID = [some idKv1] ∧
    idKv1Service ≠ idKv1 := by
  refine ⟨rfl, rfl, rfl, by decide⟩

/-- C8, amended. First match: when `GetKeyVaultIDFromBaseUrl` returns an identifier, the
enumeration consists of candidates with successful advances followed by a candidate `m`
that matches the target URI (its point lookup succeeds with a complete record whose
VaultURI is the target), the identifier returned is the one carried by the point-lookup
record of `m`, and every earlier candidate was skipped or had a different URI, so none of
them matches: `m` is the first match in enumeration order. -/
theorem first_match (parse : String → Except ForeignError ResourceID)
    (client : VaultsClient) (url : String) (id : String)
    (hret : (GetKeyVaultIDFromBaseUrl parse client url).val = some id) :
    ∃ pre it m,
      (client.ListComplete 1000).1 = VaultListResultIterator.after pre it ∧
      it.current = some m ∧
      Matches parse client url m id ∧
      (∀ p ∈ pre, Skipped parse client p.1 ∨ OtherURI parse client url p.1) ∧
      (∀ p ∈ pre, ∀ getID, ¬ Matches parse client url p.1 getID) := by
  rcases hl : client.ListComplete 1000 with ⟨list, _ | e⟩
  · rw [reverse_of_list_ok parse client url list hl] at hret
    obtain ⟨pre, it, m, hsplit, hcur, hpre, hm⟩ :=
      loop_val_some parse client url none list id hret
    refine ⟨pre, it, m, hsplit, hcur, (candidate_eq_some_iff parse client url m id).mp hm,
      fun p hp => (candidate_eq_none_iff parse client url p.1).mp (hpre p hp), ?_⟩
    intro p hp getID hmatch
    have h1 := (candidate_eq_some_iff parse client url p.1 getID).mpr hmatch
    rw [hpre p hp] at h1
    cases h1
  · rw [reverse_of_list_err parse client url list e hl] at hret
    cases hret

/-- Witness of C8 amended: `kv2` is found behind `kv1`. -/
theorem first_match_witness :
    ∃ pre it m,
      (twoVaultClient.ListComplete 1000).1 = VaultListResultIterator.after pre it ∧
      it.current = some m ∧
      Matches stubParse twoVaultClient uriKv2 m idKv2 ∧
      (∀ p ∈ pre, Skipped stubParse twoVaultClient p.1 ∨
        OtherURI stubParse twoVaultClient uriKv2 p.1) ∧
      (∀ p ∈ pre, ∀ getID, ¬ Matches stubParse twoVaultClient uriKv2 p.1 getID) :=
  first_match stubParse twoVaultClient uriKv2 idKv2 rfl

/-- C9 (the code departs from the claim). The listing succeeds, its only entry `kv2`
does not match the target, and the advance fails with "connection reset by peer".  The
error returned has the target URI and a nil error as operands: its last operand is the
variable `err` of the listing call, not the error `e` of the failed advance, so the cause
of the failure does not appear in it. -/
theorem advance_error_drops_cause :
    GetKeyVaultIDFromBaseUrl stubParse stuckClient uriKv1 =
      ⟨none,
       some (Error.Errorf
        "Error GetKeyVaultId: Error getting next vault on KeyVault url %q : %+v"
        [FmtArg.str uriKv1, FmtArg.err none]),
       [Call.ListComplete 1000, Call.Parse idKv2, Call.Get "rg1" "kv2",
        Call.NextWithContext true]⟩ ∧
    stuckClient.ListComplete 1000 =
      (VaultListResultIterator.stuck (listed idKv2) ⟨"connection reset by peer"⟩, none) := by
  refine ⟨rfl, rfl⟩

/-- C10, as stated, fails: the forward resolver needs only the vault URI of the lookup
record, the reverse resolver needs its identifier as well.  With a single vault `kv1`,
listed under its identifier, whose lookup record has the URI and no identifier,
`GetKeyVaultBaseUrlFromID` succeeds with the URI and `GetKeyVaultIDFromBaseUrl` of that
URI returns no identifier. -/
theorem round_trip_needs_record_identifier :
    idKv1 ≠ "" ∧
    stubParse idKv1 = Except.ok ⟨"s1", "rg1", "Microsoft.KeyVault", [("vaults", "kv1")]⟩ ∧
    (GetKeyVaultBaseUrlFromID stubParse noIdClient idKv1).err = none ∧
    (GetKeyVaultBaseUrlFromID stubParse noIdClient idKv1).val = uriKv1 ∧
    (noIdClient.ListComplete 1000).1.values = [listed idKv1] ∧
    (GetKeyVaultIDFromBaseUrl stubParse noIdClient uriKv1).val = none ∧
    (GetKeyVaultIDFromBaseUrl stubParse noIdClient uriKv1).err = none := by
  refine ⟨by decide, rfl, rfl, rfl, rfl, rfl, rfl⟩

/-- C10, amended. Round trip: let a non-empty identifier parse to resource group `rg` and
`vaults` name `n`, and let `GetKeyVaultBaseUrlFromID` succeed on it with URI `u`.  Suppose
that (a) the listing call succeeds and the enumeration reaches, through successful
advances, an entry whose identifier parses to `rg` and `n`; (b) no two point lookups for
different (resource group, name) pairs report the same URI; (c) the point-lookup record
for `rg` and `n` carries an identifier, and that identifier parses to `rg` and `n`.  Then
`GetKeyVaultIDFromBaseUrl u` returns, without error, an identifier (the one of that
record) which, when parsed, has resource group `rg` and `vaults` name `n`. -/
theorem round_trip (parse : String → Except ForeignError ResourceID)
    (client : VaultsClient) (keyVaultId : String) (id : ResourceID) (vaultName : String)
    (list : VaultListResultIterator) (pre : List (Vault × Bool))
    (it : VaultListResultIterator) (m : Vault) (mID : String) (mid : ResourceID)
    (getID : String) (gid : ResourceID)
    (_hne : keyVaultId ≠ "")
    (hparse : parse keyVaultId = Except.ok id)
    (hvault : id.Path.lookup "vaults" = some vaultName)
    (hfwd : (GetKeyVaultBaseUrlFromID parse client keyVaultId).err = none)
    (hlist : client.ListComplete 1000 = (list, none))
    (hsplit : list = VaultListResultIterator.after pre it)
    (hcur : it.current = some m)
    (hmID : m.ID = some mID)
    (hmparse : parse mID = Except.ok mid)
    (hmgroup : mid.ResourceGroup = id.ResourceGroup)
    (hmname : mid.Path.lookup "vaults" = some vaultName)
    (hnodup : ∀ rg1 n1 rg2 n2 g1 g2 uri,
      client.Get rg1 n1 = (g1, none) → client.Get rg2 n2 = (g2, none) →
      HasURI g1 uri → HasURI g2 uri → rg1 = rg2 ∧ n1 = n2)
    (hrecord : (client.Get id.ResourceGroup vaultName).1.ID = some getID)
    (hgparse : parse getID = Except.ok gid)
    (hggroup : gid.ResourceGroup = id.ResourceGroup)
    (hgname : gid.Path.lookup "vaults" = some vaultName) :
    ∃ back rid,
      (GetKeyVaultIDFromBaseUrl parse client
        (GetKeyVaultBaseUrlFromID parse client keyVaultId).val).val = some back ∧
      (GetKeyVaultIDFromBaseUrl parse client
        (GetKeyVaultBaseUrlFromID parse client keyVaultId).val).err = none ∧
      parse back = Except.ok rid ∧
      rid.ResourceGroup = id.ResourceGroup ∧
      rid.Path.lookup "vaults" = some vaultName := by
  obtain ⟨id2, vaultName2, resp, props, _, hparse2, hvault2, hget, hprops, huri⟩ :=
    forward_ok_inv parse client keyVaultId hfwd
  rw [hparse] at hparse2
  cases hparse2
  rw [hvault] at hvault2
  cases hvault2
  generalize (GetKeyVaultBaseUrlFromID parse client keyVaultId).val = u at huri ⊢
  have hrespID : resp.ID = some getID := by rw [hget] at hrecord; exact hrecord
  have hrespURI : HasURI resp u := ⟨props, hprops, huri⟩
  have hmMatch : Matches parse client u m getID := by
    refine ⟨resp, ⟨mID, mid, hmID, hmparse, ?_⟩, hrespID, hrespURI⟩
    rw [hmgroup, hmname]
    exact hget
  have hm := (candidate_eq_some_iff parse client u m getID).mpr hmMatch
  obtain ⟨m2, id2, hval, herr, hm2⟩ :=
    loop_reports_before parse client u none pre it m getID hcur hm
  obtain ⟨get2, ⟨vID2, vid2, _, _, hget2⟩, hget2ID, hget2URI⟩ :=
    (candidate_eq_some_iff parse client u m2 id2).mp hm2
  obtain ⟨hrg, hn⟩ := hnodup _ _ _ _ _ _ u hget2 hget hget2URI hrespURI
  rw [hrg, hn, hget] at hget2
  cases hget2
  rw [hrespID] at hget2ID
  cases hget2ID
  refine ⟨getID, gid, ?_, ?_, hgparse, hggroup, hgname⟩
  · rw [reverse_of_list_ok parse client u list hlist, hsplit]
    exact hval
  · rw [reverse_of_list_ok parse client u list hlist, hsplit]
    exact herr

/-- The point lookups of `twoVaultClient` that report a URI: `kv1` and `kv2` of `rg1`. -/
theorem twoVaultClient_lookup (rg n : String) (g : Vault) (uri : String)
    (h : twoVaultClient.Get rg n = (g, none)) (hu : HasURI g uri) :
    (rg = "rg1" ∧ n = "kv1" ∧ uri = uriKv1) ∨ (rg = "rg1" ∧ n = "kv2" ∧ uri = uriKv2) := by
  obtain ⟨p, hp, hq⟩ := hu
  simp only [twoVaultClient] at h
  by_cases a : rg = "rg1" ∧ n = "kv1"
  · rw [if_pos a] at h
    simp only [Prod.mk.injEq, and_true] at h
    subst h
    simp only [record, Option.some.injEq] at hp
    subst hp
    simp only [Option.some.injEq] at hq
    exact Or.inl ⟨a.1, a.2, hq.symm⟩
  · rw [if_neg a] at h
    by_cases b : rg = "rg1" ∧ n = "kv2"
    · rw [if_pos b] at h
      simp only [Prod.mk.injEq, and_true] at h
      subst h
      simp only [record, Option.some.injEq] at hp
      subst hp
      simp only [Option.some.injEq] at hq
      exact Or.inr ⟨b.1, b.2, hq.symm⟩
    · rw [if_neg b] at h
      simp [absentResponse] at h

/-- Witness of C10 amended: `kv2` resolved and found again in a service that holds `kv1`
and `kv2`, which have different URIs. -/
theorem round_trip_witness :
    ∃ back rid,
      (GetKeyVaultIDFromBaseUrl stubParse twoVaultClient
        (GetKeyVaultBaseUrlFromID stubParse twoVaultClient idKv2).val).val = some back ∧
      (GetKeyVaultIDFromBaseUrl stubParse twoVaultClient
        (GetKeyVaultBaseUrlFromID stubParse twoVaultClient idKv2).val).err = none ∧
      stubParse back = Except.ok rid ∧
      rid.ResourceGroup = "rg1" ∧
      rid.Path.lookup "vaults" = some "kv2" :=
  round_trip stubParse twoVaultClient idKv2
    ⟨"s1", "rg1", "Microsoft.KeyVault", [("vaults", "kv2")]⟩ "kv2"
    (twoVaultClient.ListComplete 1000).1
    [(listed idKv1, false)]
    (VaultListResultIterator.item (listed idKv2) false VaultListResultIterator.done)
    (listed idKv2) idKv2 ⟨"s1", "rg1", "Microsoft.KeyVault", [("vaults", "kv2")]⟩
    idKv2 ⟨"s1", "rg1", "Microsoft.KeyVault", [("vaults", "kv2")]⟩
    (by decide) rfl rfl rfl rfl rfl rfl rfl rfl rfl rfl
    (by
      intro rg1 n1 rg2 n2 g1 g2 uri h1 h2 hu1 hu2
      rcases twoVaultClient_lookup rg1 n1 g1 uri h1 hu1 with ⟨a, b, c⟩ | ⟨a, b, c⟩ <;>
        rcases twoVaultClient_lookup rg2 n2 g2 uri h2 hu2 with ⟨a2, b2, c2⟩ | ⟨a2, b2, c2⟩
      · exact ⟨a.trans a2.symm, b.trans b2.symm⟩
      · exact absurd (c.symm.trans c2) (by decide)
      · exact absurd (c2.symm.trans c) (by decide)
      · exact ⟨a.trans a2.symm, b.trans b2.symm⟩)
    rfl rfl rfl rfl

/-! ## Forward resolver and existence checker: agreement and calls -/

/-- C11. Agreement apart from absence: when the point lookup made for the identifier
does not fail with a not-found response, `KeyVaultExists` returns exactly the error that
`GetKeyVaultBaseUrlFromID` returns (the same `fmt.Errorf` format and operands, or the
same parser error); it returns `(true, nil)` when the resolver returns without error and
`(false, err)` with the resolver's error otherwise. -/
theorem exists_agrees_with_resolver (parse : String → Except ForeignError ResourceID)
    (client : VaultsClient) (keyVaultId : String)
    (hpresent : ∀ id vaultName resp e,
      parse keyVaultId = Except.ok id →
      id.Path.lookup "vaults" = some vaultName →
      client.Get id.ResourceGroup vaultName = (resp, some e) →
      ResponseWasNotFound resp.Response = false) :
    (KeyVaultExists parse client keyVaultId).err =
      (GetKeyVaultBaseUrlFromID parse client keyVaultId).err ∧
    ((KeyVaultExists parse client keyVaultId).val = true ↔
      (GetKeyVaultBaseUrlFromID parse client keyVaultId).err = none) ∧
    (∀ x, (GetKeyVaultBaseUrlFromID parse client keyVaultId).err = some x →
      (KeyVaultExists parse client keyVaultId).val = false ∧
      (KeyVaultExists parse client keyVaultId).err = some x) := by
  unfold GetKeyVaultBaseUrlFromID KeyVaultExists
  by_cases hne : keyVaultId = ""
  · simp [hne]
  · cases hparse : parse keyVaultId with
    | error e => simp [hne]
    | ok id =>
      cases hvault : id.Path.lookup "vaults" with
      | none => simp [hne, hvault]
      | some vaultName =>
        rcases hget : client.Get id.ResourceGroup vaultName with ⟨resp, _ | e⟩
        · cases hprops : resp.Properties with
          | none => simp [hne, hvault, hget, hprops]
          | some props =>
            cases huri : props.VaultURI with
            | none => simp [hne, hvault, hget, hprops, huri]
            | some uri => simp [hne, hvault, hget, hprops, huri]
        · have hnf := hpresent id vaultName resp e hparse hvault hget
          simp [hne, hvault, hget, hnf]

/-- Witness of C11: `kv2` in a service whose point lookup for it fails with status 500;
both functions return the "Error making Read request" error. -/
theorem exists_agrees_with_resolver_witness :
    (KeyVaultExists stubParse skipClient idKv2).err =
      (GetKeyVaultBaseUrlFromID stubParse skipClient idKv2).err ∧
    ((KeyVaultExists stubParse skipClient idKv2).val = true ↔
      (GetKeyVaultBaseUrlFromID stubParse skipClient idKv2).err = none) ∧
    (∀ x, (GetKeyVaultBaseUrlFromID stubParse skipClient idKv2).err = some x →
      (KeyVaultExists stubParse skipClient idKv2).val = false ∧
      (KeyVaultExists stubParse skipClient idKv2).err = some x) :=
  exists_agrees_with_resolver stubParse skipClient idKv2
    (by
      intro id vaultName resp e hparse hvault hget
      have hid : id = ⟨"s1", "rg1", "Microsoft.KeyVault", [("vaults", "kv2")]⟩ :=
        (Except.ok.inj hparse).symm
      subst hid
      have hname : vaultName = "kv2" := (Option.some.inj hvault).symm
      subst hname
      have hresp : resp = ⟨⟨false⟩, none, none⟩ := (Prod.mk.inj hget).1.symm
      subst hresp
      rfl)

/-- C12. Parse failure: for a non-empty identifier on which the parser fails,
`GetKeyVaultBaseUrlFromID` returns `""` and `KeyVaultExists` returns `false`, both with
exactly the parser's error, neither wrapped nor changed, and the only call either issues
is the one to the parser: no network call. -/
theorem parse_error_unchanged (parse : String → Except ForeignError ResourceID)
    (client : VaultsClient) (keyVaultId : String) (e : ForeignError)
    (hne : keyVaultId ≠ "")
    (hparse : parse keyVaultId = Except.error e) :
    GetKeyVaultBaseUrlFromID parse client keyVaultId =
      ⟨"", some (Error.foreign e), [Call.Parse keyVaultId]⟩ ∧
    KeyVaultExists parse client keyVaultId =
      ⟨false, some (Error.foreign e), [Call.Parse keyVaultId]⟩ ∧
    (GetKeyVaultBaseUrlFromID parse client keyVaultId).calls.filter Call.isNetwork = [] ∧
    (KeyVaultExists parse client keyVaultId).calls.filter Call.isNetwork = [] := by
  simp [GetKeyVaultBaseUrlFromID, KeyVaultExists, hne, hparse, Call.isNetwork]

/-- Witness of C12: a string the parser stub rejects. -/
theorem parse_error_unchanged_witness :
    GetKeyVaultBaseUrlFromID stubParse twoVaultClient "not-an-identifier" =
      ⟨"", some (Error.foreign ⟨"cannot parse Azure ID"⟩),
        [Call.Parse "not-an-identifier"]⟩ ∧
    KeyVaultExists stubParse twoVaultClient "not-an-identifier" =
      ⟨false, some (Error.foreign ⟨"cannot parse Azure ID"⟩),
        [Call.Parse "not-an-identifier"]⟩ ∧
    (GetKeyVaultBaseUrlFromID stubParse twoVaultClient "not-an-identifier").calls.filter
      Call.isNetwork = [] ∧
    (KeyVaultExists stubParse twoVaultClient "not-an-identifier").calls.filter
      Call.isNetwork = [] :=
  parse_error_unchanged stubParse twoVaultClient "not-an-identifier"
    ⟨"cannot parse Azure ID"⟩ (by decide) rfl

/-- C13. One point lookup.  (1) For an identifier that is non-empty, parses and has a
`vaults` entry, the network calls of `GetKeyVaultBaseUrlFromID` and of `KeyVaultExists`
are exactly one point lookup, for the parsed resource group and the `vaults` name,
whatever the client answers.  (2) In every other case neither issues a network call. -/
theorem one_point_lookup (parse : String → Except ForeignError ResourceID)
    (client : VaultsClient) (keyVaultId : String) :
    (∀ id vaultName,
      keyVaultId ≠ "" →
      parse keyVaultId = Except.ok id →
      id.Path.lookup "vaults" = some vaultName →
      (GetKeyVaultBaseUrlFromID parse client keyVaultId).calls.filter Call.isNetwork =
        [Call.Get id.ResourceGroup vaultName] ∧
      (KeyVaultExists parse client keyVaultId).calls.filter Call.isNetwork =
        [Call.Get id.ResourceGroup vaultName]) ∧
    ((¬ ∃ id vaultName, keyVaultId ≠ "" ∧ parse keyVaultId = Except.ok id ∧
        id.Path.lookup "vaults" = some vaultName) →
      (GetKeyVaultBaseUrlFromID parse client keyVaultId).calls.filter Call.isNetwork = [] ∧
      (KeyVaultExists parse client keyVaultId).calls.filter Call.isNetwork = []) := by
  constructor
  · intro id vaultName hne hparse hvault
    rcases hget : client.Get id.ResourceGroup vaultName with ⟨resp, _ | e⟩
    · cases hprops : resp.Properties with
      | none =>
        simp [GetKeyVaultBaseUrlFromID, KeyVaultExists, hne, hparse, hvault, hget, hprops,
          Call.isNetwork]
      | some props =>
        cases huri : props.VaultURI with
        | none =>
          simp [GetKeyVaultBaseUrlFromID, KeyVaultExists, hne, hparse, hvault, hget, hprops,
            huri, Call.isNetwork]
        | some uri =>
          simp [GetKeyVaultBaseUrlFromID, KeyVaultExists, hne, hparse, hvault, hget, hprops,
            huri, Call.isNetwork]
    · by_cases hnf : ResponseWasNotFound resp.Response = true <;>
        simp [GetKeyVaultBaseUrlFromID, KeyVaultExists, hne, hparse, hvault, hget, hnf,
          Call.isNetwork]
  · intro hnot
    by_cases hne : keyVaultId = ""
    · simp [GetKeyVaultBaseUrlFromID, KeyVaultExists, hne]
    · cases hparse : parse keyVaultId with
      | error e =>
        simp [GetKeyVaultBaseUrlFromID, KeyVaultExists, hne, hparse, Call.isNetwork]
      | ok id =>
        cases hvault : id.Path.lookup "vaults" with
        | none =>
          simp [GetKeyVaultBaseUrlFromID, KeyVaultExists, hne, hparse, hvault,
            Call.isNetwork]
        | some vaultName => exact absurd ⟨id, vaultName, hne, hparse, hvault⟩ hnot

/-- Witness of C13: the single point lookup made for `kv1`. -/
theorem one_point_lookup_witness :
    (GetKeyVaultBaseUrlFromID stubParse twoVaultClient idKv1).calls.filter Call.isNetwork =
      [Call.Get "rg1" "kv1"] ∧
    (KeyVaultExists stubParse twoVaultClient idKv1).calls.filter Call.isNetwork =
      [Call.Get "rg1" "kv1"] :=
  (one_point_lookup stubParse twoVaultClient idKv1).1
    ⟨"s1", "rg1", "Microsoft.KeyVault", [("vaults", "kv1")]⟩ "kv1" (by decide) rfl rfl

/-! ## Reverse resolver: what the scan reads and how far it goes -/

/-- The candidate step reads the identifier of the list entry and nothing else of it, and
of the client only the point lookup. -/
theorem candidate_congr (parse : String → Except ForeignError ResourceID)
    (client client2 : VaultsClient) (url : String) (v v2 : Vault)
    (hget : client.Get = client2.Get) (hid : v.ID = v2.ID) :
    GetKeyVaultIDFromBaseUrl.candidate parse client url v =
      GetKeyVaultIDFromBaseUrl.candidate parse client2 url v2 := by
  unfold GetKeyVaultIDFromBaseUrl.candidate
  rw [hid, hget]

/-- The loop gives the same outcome on two enumerations that agree on the identifiers and
on the advances. -/
theorem loop_sameIDs (parse : String → Except ForeignError ResourceID)
    (client client2 : VaultsClient) (url : String) (err : Option ForeignError)
    (hget : client.Get = client2.Get)
    (l1 l2 : VaultListResultIterator) (hids : VaultListResultIterator.SameIDs l1 l2) :
    GetKeyVaultIDFromBaseUrl.loop parse client url err l1 =
      GetKeyVaultIDFromBaseUrl.loop parse client2 url err l2 := by
  induction l1 generalizing l2 with
  | done =>
    cases l2 with
    | done => rfl
    | item v2 paged2 rest2 => simp [VaultListResultIterator.SameIDs] at hids
    | stuck v2 e2 => simp [VaultListResultIterator.SameIDs] at hids
  | item v paged rest ih =>
    cases l2 with
    | done => simp [VaultListResultIterator.SameIDs] at hids
    | item v2 paged2 rest2 =>
      simp only [VaultListResultIterator.SameIDs] at hids
      obtain ⟨hid, hp, hrest⟩ := hids
      subst hp
      simp only [GetKeyVaultIDFromBaseUrl.loop,
        candidate_congr parse client client2 url v v2 hget hid, ih rest2 hrest]
    | stuck v2 e2 => simp [VaultListResultIterator.SameIDs] at hids
  | stuck v e =>
    cases l2 with
    | done => simp [VaultListResultIterator.SameIDs] at hids
    | item v2 paged2 rest2 => simp [VaultListResultIterator.SameIDs] at hids
    | stuck v2 e2 =>
      simp only [VaultListResultIterator.SameIDs] at hids
      obtain ⟨hid, _⟩ := hids
      simp only [GetKeyVaultIDFromBaseUrl.loop,
        candidate_congr parse client client2 url v v2 hget hid]

/-- The lookup calls of an entry contain no page request. -/
theorem lookupCalls_no_page (parse : String → Except ForeignError ResourceID) (v : Vault) :
    (lookupCalls parse v).filter Call.isPageAdvance = [] := by
  unfold lookupCalls
  cases hid : v.ID with
  | none => simp
  | some vID =>
    cases hparse : parse vID with
    | error e => simp [hparse, Call.isPageAdvance]
    | ok vid => simp [hparse, Call.isPageAdvance]

/-- The visit of a prefix requests as many pages as the prefix has paging advances, and
advances once per value. -/
theorem visitCalls_prefix (parse : String → Except ForeignError ResourceID)
    (pre : List (Vault × Bool)) :
    (((VaultListResultIterator.after pre VaultListResultIterator.done).visitCalls
        parse).filter Call.isPageAdvance).length = (pre.filter (fun p => p.2)).length ∧
    (((VaultListResultIterator.after pre VaultListResultIterator.done).visitCalls
        parse).filter Call.isAdvance).length = pre.length := by
  induction pre with
  | nil => simp [VaultListResultIterator.after, VaultListResultIterator.visitCalls]
  | cons p pre ih =>
    have hafter : VaultListResultIterator.after (p :: pre) VaultListResultIterator.done =
        VaultListResultIterator.item p.1 p.2
          (VaultListResultIterator.after pre VaultListResultIterator.done) := rfl
    rw [hafter]
    simp only [VaultListResultIterator.visitCalls, List.filter_append,
      lookupCalls_no_page, lookupCalls_no_advance, List.nil_append, List.filter_cons,
      Call.isPageAdvance, Call.isAdvance]
    obtain ⟨ih1, ih2⟩ := ih
    cases hp : p.2 <;> simp [ih1, ih2]

/-- C14. The list entry's own fields are not trusted: two clients with the same point
lookup, the same outcome of the listing call, and enumerations that agree on every
entry's identifier and on every advance, while the entries' responses, properties and
vault URIs differ arbitrarily, give the same outcome of `GetKeyVaultIDFromBaseUrl` for
every target URI: the same identifier, the same error and the same calls. -/
theorem list_properties_not_trusted (parse : String → Except ForeignError ResourceID)
    (client client2 : VaultsClient) (url : String)
    (hget : client.Get = client2.Get)
    (herr : (client.ListComplete 1000).2 = (client2.ListComplete 1000).2)
    (hids : VaultListResultIterator.SameIDs (client.ListComplete 1000).1
      (client2.ListComplete 1000).1) :
    GetKeyVaultIDFromBaseUrl parse client url = GetKeyVaultIDFromBaseUrl parse client2 url := by
  rcases h1 : client.ListComplete 1000 with ⟨l1, e1⟩
  rcases h2 : client2.ListComplete 1000 with ⟨l2, e2⟩
  rw [h1, h2] at herr hids
  simp only at herr hids
  subst herr
  cases e1 with
  | some e =>
    rw [reverse_of_list_err parse client url l1 e h1,
      reverse_of_list_err parse client2 url l2 e h2]
  | none =>
    rw [reverse_of_list_ok parse client url l1 h1,
      reverse_of_list_ok parse client2 url l2 h2,
      loop_sameIDs parse client client2 url none hget l1 l2 hids]

/-- Witness of C14: a listing whose entries each show the other vault's URI gives the
same outcome as the plain listing. -/
theorem list_properties_not_trusted_witness :
    GetKeyVaultIDFromBaseUrl stubParse twoVaultClient uriKv1 =
      GetKeyVaultIDFromBaseUrl stubParse decoyListClient uriKv1 :=
  list_properties_not_trusted stubParse twoVaultClient decoyListClient uriKv1 rfl rfl
    ⟨rfl, rfl, rfl, rfl, trivial⟩

/-- C15. Early exit and page requests: when the listing call succeeds and the
enumeration reaches, through successful advances over candidates none of which matches,
a candidate `m` that matches the target URI, `GetKeyVaultIDFromBaseUrl` returns the
identifier of `m`'s lookup record, and its calls are the listing call, the visit of the
candidates before `m`, and the lookup calls of `m`, with nothing after them: no further
point lookup and no further advance.  Among these calls the advances that request a
further page number `k - 1`, where `k` is the page of `m`, and the advances number as
many as the candidates before `m`. -/
theorem early_exit_page_advances (parse : String → Except ForeignError ResourceID)
    (client : VaultsClient) (url : String) (list : VaultListResultIterator)
    (pre : List (Vault × Bool)) (it : VaultListResultIterator) (m : Vault) (getID : String)
    (hlist : client.ListComplete 1000 = (list, none))
    (hsplit : list = VaultListResultIterator.after pre it)
    (hcur : it.current = some m)
    (hfirst : ∀ p ∈ pre, ∀ g, ¬ Matches parse client url p.1 g)
    (hmatch : Matches parse client url m getID) :
    (GetKeyVaultIDFromBaseUrl parse client url).val = some getID ∧
    (GetKeyVaultIDFromBaseUrl parse client url).err = none ∧
    (GetKeyVaultIDFromBaseUrl parse client url).calls =
      Call.ListComplete 1000 ::
        ((VaultListResultIterator.after pre VaultListResultIterator.done).visitCalls parse
          ++ lookupCalls parse m) ∧
    ((GetKeyVaultIDFromBaseUrl parse client url).calls.filter Call.isPageAdvance).length =
      pageAfter pre - 1 ∧
    ((GetKeyVaultIDFromBaseUrl parse client url).calls.filter Call.isAdvance).length =
      pre.length := by
  have hpre : ∀ p ∈ pre,
      (GetKeyVaultIDFromBaseUrl.candidate parse client url p.1).1 = none := by
    intro p hp
    cases hc : (GetKeyVaultIDFromBaseUrl.candidate parse client url p.1).1 with
    | none => rfl
    | some g =>
      exact absurd ((candidate_eq_some_iff parse client url p.1 g).mp hc) (hfirst p hp g)
  have hm := (candidate_eq_some_iff parse client url m getID).mpr hmatch
  have hwalk := loop_after parse client url none pre it hpre
  have hcalls := loop_after_calls parse client url none pre it hpre
  have hhit := loop_current_match parse client url none it m getID hcur hm
  have hcount := visitCalls_prefix parse pre
  rw [reverse_of_list_ok parse client url list hlist, hsplit]
  simp only [hwalk.1, hwalk.2, hcalls, hhit, true_and]
  refine ⟨?_, ?_⟩
  · simp [List.filter_cons, List.filter_append, Call.isPageAdvance, lookupCalls_no_page,
      hcount.1, pageAfter]
  · simp [List.filter_cons, List.filter_append, Call.isAdvance, lookupCalls_no_advance,
      hcount.2]

/-- Witness of C15: a listing of two pages with the only match, `kv2`, on the second:
one page request, one advance, and the calls end with the lookup of `kv2`. -/
theorem early_exit_page_advances_witness :
    (GetKeyVaultIDFromBaseUrl stubParse twoPageClient uriKv2).val = some idKv2 ∧
    (GetKeyVaultIDFromBaseUrl stubParse twoPageClient uriKv2).err = none ∧
    (GetKeyVaultIDFromBaseUrl stubParse twoPageClient uriKv2).calls =
      Call.ListComplete 1000 ::
        ((VaultListResultIterator.after [(listed idKv1, true)]
            VaultListResultIterator.done).visitCalls stubParse
          ++ lookupCalls stubParse (listed idKv2)) ∧
    ((GetKeyVaultIDFromBaseUrl stubParse twoPageClient uriKv2).calls.filter
      Call.isPageAdvance).length = pageAfter [(listed idKv1, true)] - 1 ∧
    ((GetKeyVaultIDFromBaseUrl stubParse twoPageClient uriKv2).calls.filter
      Call.isAdvance).length = [(listed idKv1, true)].length :=
  early_exit_page_advances stubParse twoPageClient uriKv2
    (twoPageClient.ListComplete 1000).1
    [(listed idKv1, true)]
    (VaultListResultIterator.item (listed idKv2) false VaultListResultIterator.done)
    (listed idKv2) idKv2 rfl rfl rfl
    (by
      intro p hp g hm
      have hc := (candidate_eq_some_iff stubParse twoPageClient uriKv2 p.1 g).mpr hm
      simp only [List.mem_singleton] at hp
      subst hp
      have h2 : (GetKeyVaultIDFromBaseUrl.candidate stubParse twoPageClient uriKv2
        (listed idKv1)).1 = none := rfl
      rw [h2] at hc
      cases hc)
    ⟨record idKv2 uriKv2,
      ⟨idKv2, ⟨"s1", "rg1", "Microsoft.KeyVault", [("vaults", "kv2")]⟩, rfl, rfl, rfl⟩,
      rfl, ⟨some uriKv2⟩, rfl, rfl⟩

/-- C16. A candidate without a `vaults` entry is looked up, not skipped.  For a list
entry whose identifier parses to a ResourceID with no `vaults` key: (1) the candidate
step issues, after the parser call, a point lookup for the parsed resource group and the
empty string as vault name; (2) if that lookup answers without error with a complete
record whose VaultURI is the target, then on every listing whose current value is that
entry `GetKeyVaultIDFromBaseUrl` returns the record's identifier without error; (3) on
the same identifier, when it is not empty, `GetKeyVaultBaseUrlFromID` and
`KeyVaultExists` return the "resource id does not contain vaults" error and make no
network call. -/
theorem candidate_without_vaults_is_looked_up
    (parse : String → Except ForeignError ResourceID)
    (client : VaultsClient) (url : String) (v : Vault) (vID : String) (vid : ResourceID)
    (hid : v.ID = some vID)
    (hparse : parse vID = Except.ok vid)
    (hvault : vid.Path.lookup "vaults" = none) :
    (GetKeyVaultIDFromBaseUrl.candidate parse client url v).2 =
      [Call.Parse vID, Call.Get vid.ResourceGroup ""] ∧
    (∀ get getID list,
      client.Get vid.ResourceGroup "" = (get, none) →
      Complete get getID url →
      client.ListComplete 1000 = (list, none) →
      list.current = some v →
      GetKeyVaultIDFromBaseUrl parse client url =
        ⟨some getID, none,
          [Call.ListComplete 1000, Call.Parse vID, Call.Get vid.ResourceGroup ""]⟩) ∧
    (vID ≠ "" →
      GetKeyVaultBaseUrlFromID parse client vID =
        ⟨"", some (Error.Errorf "resource id does not contain `vaults`: %q"
          [FmtArg.str vID]), [Call.Parse vID]⟩ ∧
      KeyVaultExists parse client vID =
        ⟨false, some (Error.Errorf "resource id does not contain `vaults`: %q"
          [FmtArg.str vID]), [Call.Parse vID]⟩) := by
  have hcalls : lookupCalls parse v = [Call.Parse vID, Call.Get vid.ResourceGroup ""] := by
    simp [lookupCalls, hid, hparse, hvault]
  refine ⟨?_, ?_, ?_⟩
  · rw [candidate_calls parse client url v, hcalls]
  · intro get getID list hget hcomplete hlist hcur
    have hmatch : Matches parse client url v getID := by
      refine ⟨get, ⟨vID, vid, hid, hparse, ?_⟩, hcomplete⟩
      rw [hvault]
      exact hget
    have hm := (candidate_eq_some_iff parse client url v getID).mpr hmatch
    rw [reverse_of_list_ok parse client url list hlist,
      loop_current_match parse client url none list v getID hcur hm, hcalls]
  · intro hne
    simp [GetKeyVaultBaseUrlFromID, KeyVaultExists, hne, hparse, hvault]

/-- Witness of C16: a listed web site whose lookup with the empty vault name reports the
target URI is returned as the match. -/
theorem candidate_without_vaults_is_looked_up_witness :
    GetKeyVaultIDFromBaseUrl stubParse emptyNameClient uriKv1 =
      ⟨some idWeb1, none, [Call.ListComplete 1000, Call.Parse idWeb1, Call.Get "rg1" ""]⟩ :=
  (candidate_without_vaults_is_looked_up stubParse emptyNameClient uriKv1 (listed idWeb1)
    idWeb1 ⟨"s1", "rg1", "Microsoft.Web", [("sites", "web1")]⟩ rfl rfl rfl).2.1
    (record idWeb1 uriKv1) idWeb1 (emptyNameClient.ListComplete 1000).1 rfl
    ⟨rfl, ⟨some uriKv1⟩, rfl, rfl⟩ rfl rfl

end Azure
